import Mathlib

/-!
Shallow embedding of the foosball-tracker core (rating engine, cake ledger,
season resolver, recalculation orchestrator and tournament bracket engine)
together with proofs about the claims of the specification.

Conventions of the embedding:
* Python integers become `Nat` or `Int`; Python floats are modelled as real
  numbers (the float computations the claims touch are exact at the inputs
  involved); Python `round` (banker rounding, half to even) becomes `pyRound`.
* Database rows become structures, tables become lists, and the mutable
  rating columns of the `player` table become a total map `Ratings`.
* Functions keep the names of the source functions they are translated from.
-/

set_option linter.unusedVariables false

/-- Python `round`: round half to even (banker rounding), as used by
`calculate_elo_change` in `services/elo_service.py`. -/
noncomputable def pyRound (x : ℝ) : ℤ :=
  if Int.fract x = 1 / 2 then
    if Even ⌊x⌋ then ⌊x⌋ else ⌊x⌋ + 1
  else round x

/-- Translation of `calculate_elo_change(team1_rating, team2_rating,
team1_score, team2_score, k_factor)` from `services/elo_service.py`
(lines 6 to 34).  The source defaults `k_factor` to 32; every caller uses
that default, and callers here pass 32 explicitly. -/
noncomputable def calculate_elo_change (team1_rating team2_rating : ℝ)
    (team1_score team2_score : ℤ) (k_factor : ℝ) : ℤ × ℤ :=
  let expected_team1 : ℝ := 1 / (1 + (10 : ℝ) ^ ((team2_rating - team1_rating) / 400))
  let expected_team2 : ℝ := 1 / (1 + (10 : ℝ) ^ ((team1_rating - team2_rating) / 400))
  let actual_team1 : ℝ := if team2_score < team1_score then 1 else 0
  let actual_team2 : ℝ := if team1_score < team2_score then 1 else 0
  (pyRound (k_factor * (actual_team1 - expected_team1)),
   pyRound (k_factor * (actual_team2 - expected_team2)))

/-- Game formats, column `game.game_type` of `models.py` (values `1v1`,
`2v2`, `2v1`). -/
inductive GameType
  | t1v1
  | t2v2
  | t2v1
deriving DecidableEq, Repr

/-- Row of the `game_player` table (`models.py`, class `GamePlayer`). -/
structure GamePlayer where
  player_id : ℕ
  team : ℕ
  is_winner : Bool
  elo_change : Option ℤ
deriving DecidableEq, Repr

/-- Row of the `game` table (`models.py`, class `Game`), with its owned
`GamePlayer` rows inlined.  The `season_id` column is absent from the stale
`models.py` under `src/` but is declared by migration
`a1b2c3d4e5f6_create_all_tables_with_seasons.py` (NOT NULL) and is written by
every caller in `blueprints/games.py`; it is modelled here as the spec
describes it (a season assignment per game), optional because nothing in
`src/` forces it to be set. -/
structure Game where
  start_time : ℕ
  game_type : GameType
  team1_score : ℤ
  team2_score : ℤ
  season_id : Option ℕ
  players : List GamePlayer
deriving DecidableEq, Repr

/-- Derived property `Game.is_shutout` of `models.py`: absolute score
difference at least 10. -/
def is_shutout (g : Game) : Bool :=
  10 ≤ (g.team1_score - g.team2_score).natAbs

/-- The four mutable rating columns of one `player` row (`models.py`,
class `Player`). -/
structure PlayerRatings where
  elo_rating : ℤ
  elo_1v1 : ℤ
  elo_2v2 : ℤ
  elo_2v1 : ℤ
deriving DecidableEq, Repr

/-- The rating state of the whole `player` table, as a total map from
player id to that player's rating columns. -/
def Ratings : Type := ℕ → PlayerRatings

/-- Reading the game-type-scoped rating column, the explicit form of the
`getattr(player, f"elo_[game_type]")` reflection in
`services/elo_service.py`. -/
def getSpecific (p : PlayerRatings) : GameType → ℤ
  | GameType.t1v1 => p.elo_1v1
  | GameType.t2v2 => p.elo_2v2
  | GameType.t2v1 => p.elo_2v1

/-- Writing the game-type-scoped rating column, the explicit form of the
`setattr` reflection in `services/elo_service.py`. -/
def setSpecific (p : PlayerRatings) : GameType → ℤ → PlayerRatings
  | GameType.t1v1, v => { p with elo_1v1 := v }
  | GameType.t2v2, v => { p with elo_2v2 := v }
  | GameType.t2v1, v => { p with elo_2v1 := v }

/-- One step of the per-player mutation loops at the end of
`update_elo_ratings`: add the global delta to `elo_rating` and the scoped
delta to the game-type column of player `p`. -/
def applyChange (r : Ratings) (p : ℕ) (dg ds : ℤ) (t : GameType) : Ratings :=
  fun q =>
    if q = p then
      setSpecific { r q with elo_rating := (r q).elo_rating + dg } t
        (getSpecific (r q) t + ds)
    else r q

/-- Translation of `update_elo_ratings(game)` from `services/elo_service.py`
(lines 37 to 89) as a transformer of the rating state.  Team 2 is the
`else` branch of the partition, exactly as in the source.  The source also
stores the global team delta into each participant's `elo_change` column;
that audit annotation is not part of the rating state modelled here. -/
noncomputable def update_elo_ratings (game : Game) (r : Ratings) : Ratings :=
  let team1 := ((game.players.filter fun gp => gp.team == 1).map fun gp => gp.player_id)
  let team2 := ((game.players.filter fun gp => gp.team != 1).map fun gp => gp.player_id)
  let team1_avg_rating_global : ℝ :=
    ((team1.map fun p => ((r p).elo_rating : ℝ)).sum) / (team1.length : ℝ)
  let team2_avg_rating_global : ℝ :=
    ((team2.map fun p => ((r p).elo_rating : ℝ)).sum) / (team2.length : ℝ)
  let team1_avg_rating_specific : ℝ :=
    ((team1.map fun p => ((getSpecific (r p) game.game_type : ℤ) : ℝ)).sum) / (team1.length : ℝ)
  let team2_avg_rating_specific : ℝ :=
    ((team2.map fun p => ((getSpecific (r p) game.game_type : ℤ) : ℝ)).sum) / (team2.length : ℝ)
  let cg := calculate_elo_change team1_avg_rating_global team2_avg_rating_global
    game.team1_score game.team2_score 32
  let cs := calculate_elo_change team1_avg_rating_specific team2_avg_rating_specific
    game.team1_score game.team2_score 32
  let r1 := team1.foldl (fun acc p => applyChange acc p cg.1 cs.1 game.game_type) r
  team2.foldl (fun acc p => applyChange acc p cg.2 cs.2 game.game_type) r1

/-- The 1500 baseline every rating column is reset to. -/
def baselineRatings : Ratings :=
  fun _ => { elo_rating := 1500, elo_1v1 := 1500, elo_2v2 := 1500, elo_2v1 := 1500 }

/-- The chronological ordering `Game.query.order_by(Game.start_time)` used
by the replay, as a stable sort on the stored game list. -/
def sortGames (games : List Game) : List Game :=
  games.mergeSort fun a b => a.start_time ≤ b.start_time

/-- Translation of `recalculate_all_elo_ratings()` from
`services/elo_service.py` (lines 92 to 113): reset every player's four
rating columns to 1500, then replay every game in `start_time` order.  The
parameter `r` is the prior rating state of the `player` table; the source
overwrites it unconditionally. -/
noncomputable def recalculate_all_elo_ratings (games : List Game) (r : Ratings) : Ratings :=
  (sortGames games).foldl (fun acc g => update_elo_ratings g acc) baselineRatings

/-- Helper: a cast integer has fractional part 0, hence is not at a rounding
tie, hence `pyRound` agrees with the cast. -/
theorem pyRound_intCast (n : ℤ) : pyRound (n : ℝ) = n := by
  unfold pyRound
  rw [Int.fract_intCast]
  norm_num

/-- Helper: `pyRound` of a real known to equal a cast integer. -/
theorem pyRound_eq_of_eq {x : ℝ} {n : ℤ} (h : x = (n : ℝ)) : pyRound x = n := by
  rw [h]; exact pyRound_intCast n

/-- Helper: at equal team ratings both expected scores are exactly one half,
so with k = 32 the winner's delta is 16 and the loser's is minus 16. -/
theorem calculate_elo_change_eq_ratings (t : ℝ) (s1 s2 : ℤ) :
    calculate_elo_change t t s1 s2 32 =
      (if s2 < s1 then (16, -16) else if s1 < s2 then (-16, 16)
        else (pyRound (-16), pyRound (-16))) := by
  simp only [calculate_elo_change, sub_self, zero_div, Real.rpow_zero]
  rcases lt_trichotomy s1 s2 with h | h | h
  · simp only [if_neg (show ¬ s2 < s1 by omega), if_pos h, Prod.mk.injEq]
    exact ⟨pyRound_eq_of_eq (by norm_num), pyRound_eq_of_eq (by norm_num)⟩
  · simp only [if_neg (show ¬ s2 < s1 by omega), if_neg (show ¬ s1 < s2 by omega),
      Prod.mk.injEq]
    exact ⟨congrArg pyRound (by norm_num), congrArg pyRound (by norm_num)⟩
  · simp only [if_pos h, if_neg (show ¬ s1 < s2 by omega), Prod.mk.injEq]
    exact ⟨pyRound_eq_of_eq (by norm_num), pyRound_eq_of_eq (by norm_num)⟩

/-- C3: with equal team ratings and unequal scores, `calculate_elo_change`
with k = 32 returns two integer deltas summing to zero, and on the concrete
scenario 1500 versus 1500 with score 10 to 3 the winner gains 16 and the
loser loses 16. -/
theorem rating_delta_zero_sum (t1 t2 : ℝ) (s1 s2 : ℤ)
    (heq : t1 = t2) (hne : s1 ≠ s2) :
    (calculate_elo_change t1 t2 s1 s2 32).1 + (calculate_elo_change t1 t2 s1 s2 32).2 = 0
    ∧ calculate_elo_change 1500 1500 10 3 32 = (16, -16) := by
  subst heq
  refine ⟨?_, ?_⟩
  · rw [calculate_elo_change_eq_ratings]
    rcases lt_or_gt_of_ne hne with h | h
    · rw [if_neg (by omega), if_pos h]; norm_num
    · rw [if_pos h]; norm_num
  · rw [calculate_elo_change_eq_ratings]
    norm_num

/-- Witness for C3 at team ratings 1400 and 1400 with scores 7 and 5. -/
theorem rating_delta_zero_sum_witness :
    (calculate_elo_change 1400 1400 7 5 32).1 + (calculate_elo_change 1400 1400 7 5 32).2 = 0
    ∧ calculate_elo_change 1500 1500 10 3 32 = (16, -16) :=
  rating_delta_zero_sum 1400 1400 7 5 rfl (by decide)

/-- C1: starting every player at the 1500 baseline and applying
`update_elo_ratings` to each game one at a time in ascending `start_time`
order yields exactly the rating state (global and game-type-scoped columns
alike) produced by the full replay `recalculate_all_elo_ratings` on the same
game log, whatever rating state the table held before. -/
theorem replay_eq_incremental (games : List Game) (r : Ratings)
    (hsorted : games.Pairwise fun a b => a.start_time ≤ b.start_time) :
    games.foldl (fun acc g => update_elo_ratings g acc) baselineRatings
      = recalculate_all_elo_ratings games r := by
  unfold recalculate_all_elo_ratings sortGames
  rw [List.mergeSort_of_sorted (by simpa using hsorted)]

/-- Witness for C1 on a concrete two game log in ascending timestamp
order. -/
theorem replay_eq_incremental_witness :
    [{ start_time := 1, game_type := GameType.t1v1, team1_score := 10, team2_score := 3,
       season_id := some 1,
       players := [{ player_id := 1, team := 1, is_winner := true, elo_change := none },
                   { player_id := 2, team := 2, is_winner := false, elo_change := none }] },
     { start_time := 2, game_type := GameType.t1v1, team1_score := 4, team2_score := 10,
       season_id := some 1,
       players := [{ player_id := 1, team := 1, is_winner := false, elo_change := none },
                   { player_id := 2, team := 2, is_winner := true, elo_change := none }] }
    ].foldl (fun acc g => update_elo_ratings g acc) baselineRatings
      = recalculate_all_elo_ratings
          [{ start_time := 1, game_type := GameType.t1v1, team1_score := 10, team2_score := 3,
             season_id := some 1,
             players := [{ player_id := 1, team := 1, is_winner := true, elo_change := none },
                         { player_id := 2, team := 2, is_winner := false, elo_change := none }] },
           { start_time := 2, game_type := GameType.t1v1, team1_score := 4, team2_score := 10,
             season_id := some 1,
             players := [{ player_id := 1, team := 1, is_winner := false, elo_change := none },
                         { player_id := 2, team := 2, is_winner := true, elo_change := none }] }]
          baselineRatings :=
  replay_eq_incremental _ baselineRatings (by decide)

/-- Calendar timestamps of the season service, modelling Python `datetime`
values: year, month, day, and seconds within the day (0 to 86399). -/
structure DT where
  year : ℕ
  month : ℕ
  day : ℕ
  sec : ℕ
deriving DecidableEq, Repr

/-- Lexicographic comparison of timestamps, the order Python `datetime`
comparison realises. -/
def dtLe (a b : DT) : Bool :=
  if a.year < b.year then true
  else if b.year < a.year then false
  else if a.month < b.month then true
  else if b.month < a.month then false
  else if a.day < b.day then true
  else if b.day < a.day then false
  else Nat.ble a.sec b.sec

/-- Strict lexicographic comparison of timestamps. -/
def dtLt (a b : DT) : Bool :=
  dtLe a b && !(dtLe b a)

/-- Leap year test exactly as written in `get_quarter_boundaries`
(`services/season_service.py` line 43). -/
def isLeapYear (y : ℕ) : Bool :=
  y % 4 == 0 && (y % 100 != 0 || y % 400 == 0)

/-- Translation of `get_quarter_info(date)` from
`services/season_service.py` (lines 5 to 18): returns (quarter, year). -/
def get_quarter_info (d : DT) : ℕ × ℕ :=
  ((d.month - 1) / 3 + 1, d.year)

/-- Translation of `get_quarter_boundaries(year, quarter)` from
`services/season_service.py` (lines 21 to 55).  The source raises
`ValueError` outside quarters 1 to 4; its callers only ever pass values of
`get_quarter_info`, which lie in range for valid dates. -/
def get_quarter_boundaries (y q : ℕ) : DT × DT :=
  let startMonth := (q - 1) * 3 + 1
  if q = 4 then
    ({ year := y, month := startMonth, day := 1, sec := 0 },
     { year := y, month := 12, day := 31, sec := 86399 })
  else
    let endMonth := startMonth + 2
    let endDay :=
      if endMonth = 3 then (if isLeapYear y then 29 else 28)
      else if [1, 3, 5, 7, 8, 10, 12].contains endMonth then 31
      else 30
    ({ year := y, month := startMonth, day := 1, sec := 0 },
     { year := y, month := endMonth, day := endDay, sec := 86399 })

/-- Days in a calendar month, used to model `datetime + timedelta(days=1)`.
-/
def daysInMonth (y m : ℕ) : ℕ :=
  if m = 2 then (if isLeapYear y then 29 else 28)
  else if [1, 3, 5, 7, 8, 10, 12].contains m then 31
  else 30

/-- Model of `date + timedelta(days=1)`: same time of day, next calendar
day. -/
def nextDay (d : DT) : DT :=
  if d.day + 1 ≤ daysInMonth d.year d.month then
    { d with day := d.day + 1 }
  else if d.month = 12 then
    { year := d.year + 1, month := 1, day := 1, sec := d.sec }
  else
    { year := d.year, month := d.month + 1, day := 1, sec := d.sec }

/-- Row of the `season` table.  The `Season` model is referenced throughout
`services/` and created by migration `a1b2c3d4e5f6` but its class is absent
from the `models.py` under `src/`; the fields here are modelled from the
spec (name, contiguous date range, `is_current` flag) and from every use in
`services/season_service.py`. -/
structure SeasonRec where
  id : ℕ
  name : String
  start_date : DT
  end_date : DT
  is_current : Bool
deriving DecidableEq, Repr

/-- State touched by the season service: the `season` table (in insertion
order, with the autoincrement counter) and the rating columns of the
`player` table. -/
structure SeasonDB where
  seasons : List SeasonRec
  nextId : ℕ
  ratings : Ratings

/-- Translation of `create_season(year, quarter)` from
`services/season_service.py` (lines 58 to 81): inserts a season row with
`is_current=False` and returns it. -/
def create_season (y q : ℕ) (db : SeasonDB) : SeasonRec × SeasonDB :=
  let bounds := get_quarter_boundaries y q
  let s : SeasonRec :=
    { id := db.nextId, name := s!"Q{q} {y}", start_date := bounds.1,
      end_date := bounds.2, is_current := false }
  (s, { db with seasons := db.seasons ++ [s], nextId := db.nextId + 1 })

/-- Unmark every season and mark the season at position `idx` as current;
this is the effect of `Season.query.update(is_current=False)` followed by
`season.is_current = True` on the row at that position. -/
def setCurrentIdx : List SeasonRec → ℕ → List SeasonRec
  | [], _ => []
  | s :: rest, 0 =>
      { s with is_current := true } :: rest.map (fun t => { t with is_current := false })
  | s :: rest, Nat.succ i =>
      { s with is_current := false } :: setCurrentIdx rest i

/-- Translation of `transition_to_season(season)` from
`services/season_service.py` (lines 116 to 137): unmark all seasons, mark
the given one (identified here by its position in the table), and reset
every player's global `elo_rating` to 1500.  The game-type-scoped columns
`elo_1v1`, `elo_2v2`, `elo_2v1` are not touched by the source. -/
def transition_to_season (db : SeasonDB) (idx : ℕ) : SeasonDB :=
  { db with
    seasons := setCurrentIdx db.seasons idx,
    ratings := fun p => { db.ratings p with elo_rating := 1500 } }

/-- Translation of `get_current_season()` from
`services/season_service.py` (lines 84 to 113), with the clock `now` as an
explicit input. -/
def get_current_season (now : DT) (db : SeasonDB) : SeasonRec × SeasonDB :=
  match db.seasons.find? (fun s => s.is_current) with
  | some cur =>
      if dtLt cur.end_date now then
        let qi := get_quarter_info (nextDay cur.end_date)
        let res := create_season qi.2 qi.1 db
        let db2 := transition_to_season res.2 (res.2.seasons.length - 1)
        ({ res.1 with is_current := true }, db2)
      else (cur, db)
  | none =>
      let qi := get_quarter_info now
      let res := create_season qi.2 qi.1 db
      let db2 := transition_to_season res.2 (res.2.seasons.length - 1)
      ({ res.1 with is_current := true }, db2)

/-- Translation of `get_season_for_date(date)` from
`services/season_service.py` (lines 140 to 162): return the season whose
range contains the date, or create one for its quarter (note: created via
`create_season`, hence with `is_current=False` and with no transition). -/
def get_season_for_date (d : DT) (db : SeasonDB) : SeasonRec × SeasonDB :=
  match db.seasons.find? (fun s => dtLe s.start_date d && dtLe d s.end_date) with
  | some s => (s, db)
  | none =>
      let qi := get_quarter_info d
      create_season qi.2 qi.1 db

/-- Number of rows of the season table flagged current. -/
def countCurrent (db : SeasonDB) : ℕ :=
  db.seasons.countP (fun s => s.is_current)

/-- Helper: unmarking every season leaves no current row. -/
theorem countP_unset_all (l : List SeasonRec) :
    (l.map fun t => { t with is_current := false }).countP (fun s => s.is_current) = 0 := by
  induction l with
  | nil => rfl
  | cons a l ih => simp [List.countP_cons, ih]

/-- Helper: unmark-all-then-mark-one leaves exactly one current row when the
marked position exists. -/
theorem countP_setCurrentIdx (l : List SeasonRec) (idx : ℕ) (h : idx < l.length) :
    (setCurrentIdx l idx).countP (fun s => s.is_current) = 1 := by
  induction l generalizing idx with
  | nil => simp at h
  | cons a l ih =>
      cases idx with
      | zero => simp [setCurrentIdx, List.countP_cons, countP_unset_all]
      | succ i =>
          have hi : i < l.length := by simpa using h
          simp [setCurrentIdx, List.countP_cons, ih i hi]

/-- C9 counterexample: creating the first-ever season through
`get_season_for_date` (for example for a past-dated game on an empty season
table) leaves a season table with one row and zero rows flagged current, so
the claimed invariant (exactly one current once any season exists) is false
after that operation. -/
theorem get_season_for_date_first_creation_no_current :
    (get_season_for_date { year := 2024, month := 5, day := 15, sec := 0 }
        { seasons := [], nextId := 0, ratings := baselineRatings }).2.seasons.length = 1
    ∧ ¬ (get_season_for_date { year := 2024, month := 5, day := 15, sec := 0 }
        { seasons := [], nextId := 0, ratings := baselineRatings }).2.seasons.countP
          (fun s => s.is_current) = 1 := by
  constructor
  · rfl
  · decide

/-- C9 amended: `transition_to_season` (on a row that exists) and
`get_current_season` (from a state with at most one current season) leave
exactly one season flagged current, while `create_season` and
`get_season_for_date` never change which seasons are flagged current; in
particular a first-ever season created through `get_season_for_date` leaves
zero seasons current. -/
theorem season_current_flag_discipline :
    (∀ db idx, idx < db.seasons.length →
        countCurrent (transition_to_season db idx) = 1)
    ∧ (∀ now db, countCurrent db ≤ 1 →
        countCurrent (get_current_season now db).2 = 1)
    ∧ (∀ y q db, countCurrent (create_season y q db).2 = countCurrent db)
    ∧ (∀ d db, countCurrent (get_season_for_date d db).2 = countCurrent db) := by
  have hcreate : ∀ y q db, countCurrent (create_season y q db).2 = countCurrent db := by
    intro y q db
    unfold countCurrent create_season
    simp [List.countP_append]
  have htrans : ∀ db idx, idx < db.seasons.length →
      countCurrent (transition_to_season db idx) = 1 := by
    intro db idx h
    unfold countCurrent transition_to_season
    exact countP_setCurrentIdx db.seasons idx h
  refine ⟨htrans, ?_, hcreate, ?_⟩
  · intro now db hle
    unfold get_current_season
    cases hf : db.seasons.find? (fun s => s.is_current) with
    | none =>
        simp only
        apply htrans
        simp [create_season]
    | some cur =>
        simp only
        by_cases hexp : dtLt cur.end_date now = true
        · rw [if_pos hexp]
          apply htrans
          simp [create_season]
        · rw [if_neg hexp]
          have hmem := List.mem_of_find?_eq_some hf
          have hp := List.find?_some hf
          have hpos : 0 < countCurrent db := by
            unfold countCurrent
            rw [List.countP_pos_iff]
            exact ⟨cur, hmem, hp⟩
          show countCurrent db = 1
          omega
  · intro d db
    unfold get_season_for_date
    cases hf : db.seasons.find? (fun s => dtLe s.start_date d && dtLe d s.end_date) with
    | none => simp only; exact hcreate _ _ db
    | some s => rfl

/-- Concrete current season row, used by witnesses. -/
def seasonRowQ1 : SeasonRec :=
  { id := 0
    name := "Q1 2024"
    start_date := { year := 2024, month := 1, day := 1, sec := 0 }
    end_date := { year := 2024, month := 3, day := 31, sec := 86399 }
    is_current := true }

/-- Concrete season table with a single row, used by witnesses. -/
def seasonDbOne : SeasonDB :=
  { seasons := [seasonRowQ1], nextId := 1, ratings := baselineRatings }

/-- Empty season table, used by witnesses. -/
def seasonDbEmpty : SeasonDB :=
  { seasons := [], nextId := 0, ratings := baselineRatings }

/-- Witness for the amended C9 statement on concrete season tables. -/
theorem season_current_flag_discipline_witness :
    countCurrent (transition_to_season seasonDbOne 0) = 1
    ∧ countCurrent
        (get_current_season { year := 2024, month := 2, day := 1, sec := 0 } seasonDbEmpty).2 = 1
    ∧ countCurrent (create_season 2024 1 seasonDbEmpty).2 = countCurrent seasonDbEmpty
    ∧ countCurrent (get_season_for_date { year := 2024, month := 5, day := 15, sec := 0 }
        seasonDbEmpty).2 = countCurrent seasonDbEmpty :=
  ⟨season_current_flag_discipline.1 seasonDbOne 0 (by simp [seasonDbOne]),
   season_current_flag_discipline.2.1 _ seasonDbEmpty (by simp [seasonDbEmpty, countCurrent]),
   season_current_flag_discipline.2.2.1 2024 1 seasonDbEmpty,
   season_current_flag_discipline.2.2.2 _ seasonDbEmpty⟩

/-- C10: season rollover (`transition_to_season`, and the rollover paths of
`get_current_season`) resets every player's global `elo_rating` to 1500 and
leaves the game-type-scoped columns `elo_1v1`, `elo_2v2`, `elo_2v1`
untouched, whereas the full replay `recalculate_all_elo_ratings` overwrites
all four columns with 1500 (shown on the empty log, where the reset is the
whole effect) and is insensitive to the prior rating state. -/
theorem season_rollover_rating_frame :
    (∀ db idx p,
        ((transition_to_season db idx).ratings p).elo_rating = 1500
        ∧ ((transition_to_season db idx).ratings p).elo_1v1 = (db.ratings p).elo_1v1
        ∧ ((transition_to_season db idx).ratings p).elo_2v2 = (db.ratings p).elo_2v2
        ∧ ((transition_to_season db idx).ratings p).elo_2v1 = (db.ratings p).elo_2v1)
    ∧ (∀ r, recalculate_all_elo_ratings [] r = baselineRatings)
    ∧ (∀ games r r1,
        recalculate_all_elo_ratings games r = recalculate_all_elo_ratings games r1)
    ∧ (∀ now db, (get_current_season now db).2.ratings = db.ratings
        ∨ ∀ p, (((get_current_season now db).2.ratings p).elo_rating = 1500
            ∧ ((get_current_season now db).2.ratings p).elo_1v1 = (db.ratings p).elo_1v1
            ∧ ((get_current_season now db).2.ratings p).elo_2v2 = (db.ratings p).elo_2v2
            ∧ ((get_current_season now db).2.ratings p).elo_2v1 = (db.ratings p).elo_2v1)) := by
  refine ⟨fun db idx p => ⟨rfl, rfl, rfl, rfl⟩, ?_, fun games r r1 => rfl, ?_⟩
  · intro r
    unfold recalculate_all_elo_ratings sortGames
    rw [List.mergeSort_nil]
    rfl
  · intro now db
    unfold get_current_season
    cases hf : db.seasons.find? (fun s => s.is_current) with
    | none => exact Or.inr fun p => ⟨rfl, rfl, rfl, rfl⟩
    | some cur =>
        simp only
        by_cases hexp : dtLt cur.end_date now = true
        · rw [if_pos hexp]
          exact Or.inr fun p => ⟨rfl, rfl, rfl, rfl⟩
        · rw [if_neg hexp]
          exact Or.inl rfl

/-- Row of the `cake_balance` table.  `models.py` (lines 62 to 72) declares
debtor, creditor and balance; the `season_id` column is added by migration
`a1b2c3d4e5f6` (NOT NULL) and filtered on by
`services/recalculation_service.py`, but `update_cake_balance` never reads
nor writes it, so rows created by that function carry `none` here. -/
structure CakeBalance where
  debtor_id : ℕ
  creditor_id : ℕ
  balance : ℤ
  season_id : Option ℕ
deriving DecidableEq, Repr

/-- The lookup filter of `update_cake_balance`:
`CakeBalance.query.filter_by(debtor_id=..., creditor_id=...)` — note the
absence of any season condition. -/
def keyMatches (l w : ℕ) (b : CakeBalance) : Bool :=
  b.debtor_id == l && b.creditor_id == w

/-- Increment the first `(debtor, creditor)` row, or append a fresh row
with balance 1 (and no season) when none matches; this is the body of the
inner loop of `update_cake_balance` in `services/game_service.py`. -/
def bumpFirst (l w : ℕ) : List CakeBalance → List CakeBalance
  | [] => [{ debtor_id := l, creditor_id := w, balance := 1, season_id := none }]
  | b :: rest =>
      if keyMatches l w b then { b with balance := b.balance + 1 } :: rest
      else b :: bumpFirst l w rest

/-- Winning participants of a game, by the stored `is_winner` flag. -/
def winnersOf (g : Game) : List ℕ :=
  (g.players.filter fun gp => gp.is_winner).map fun gp => gp.player_id

/-- Losing participants of a game, by the stored `is_winner` flag. -/
def losersOf (g : Game) : List ℕ :=
  (g.players.filter fun gp => !gp.is_winner).map fun gp => gp.player_id

/-- Translation of `update_cake_balance(game)` from
`services/game_service.py` (lines 7 to 37): every loser owes every winner
one cake; the directed balance is incremented (or created at 1) for each
pair, keyed by debtor and creditor only. -/
def update_cake_balance (g : Game) (led : List CakeBalance) : List CakeBalance :=
  (losersOf g).foldl
    (fun acc l => (winnersOf g).foldl (fun acc2 w => bumpFirst l w acc2) acc) led

/-- One step of the cake rebuild loop of
`services/recalculation_service.py` (lines 44 to 46): shutout games feed
the ledger, others are skipped. -/
def applyCake (led : List CakeBalance) (g : Game) : List CakeBalance :=
  if is_shutout g then update_cake_balance g led else led

/-- The cake-ledger full rebuild: delete all balances of the scope, then
apply every shutout game of the game list (the source iterates in
`start_time` order; the order is irrelevant, which is claim C8). -/
def rebuild_cake_balances (gs : List Game) : List CakeBalance :=
  gs.foldl applyCake []

/-- Stored balance of the first row for a directed pair, 0 when absent. -/
def balOf (led : List CakeBalance) (l w : ℕ) : ℤ :=
  match led.find? (keyMatches l w) with
  | some b => b.balance
  | none => 0

/-- Keys of a ledger, in row order. -/
def keysOf (led : List CakeBalance) : List (ℕ × ℕ) :=
  led.map fun b => (b.debtor_id, b.creditor_id)

/-- Helper: effect of one increment on every stored balance. -/
theorem balOf_bumpFirst (l w l2 w2 : ℕ) (led : List CakeBalance) :
    balOf (bumpFirst l w led) l2 w2
      = balOf led l2 w2 + (if l = l2 ∧ w = w2 then 1 else 0) := by
  induction led with
  | nil =>
      by_cases h1 : l = l2 <;> by_cases h2 : w = w2
      · simp [bumpFirst, balOf, List.find?, keyMatches, h1, h2]
      · have hb : (w == w2) = false := beq_eq_false_iff_ne.mpr h2
        simp [bumpFirst, balOf, List.find?, keyMatches, h1, hb, h2]
      · have hb : (l == l2) = false := beq_eq_false_iff_ne.mpr h1
        simp [bumpFirst, balOf, List.find?, keyMatches, hb, h1, h2]
      · have hb : (l == l2) = false := beq_eq_false_iff_ne.mpr h1
        simp [bumpFirst, balOf, List.find?, keyMatches, hb, h1, h2]
  | cons b rest ih =>
      by_cases hk : keyMatches l w b = true
      · simp only [bumpFirst, if_pos hk]
        by_cases h2 : keyMatches l2 w2 b = true
        · have h2b : keyMatches l2 w2 { b with balance := b.balance + 1 } = true := h2
          have heq : l = l2 ∧ w = w2 := by
            simp only [keyMatches, Bool.and_eq_true, beq_iff_eq] at hk h2
            exact ⟨hk.1.symm.trans h2.1, hk.2.symm.trans h2.2⟩
          simp [balOf, List.find?, h2b, h2, heq]
        · have h2b : keyMatches l2 w2 { b with balance := b.balance + 1 } = false := by
            simpa using h2
          have hne : ¬ (l = l2 ∧ w = w2) := by
            intro hc
            apply h2
            obtain ⟨hc1, hc2⟩ := hc
            subst hc1; subst hc2
            exact hk
          simp [balOf, List.find?, h2b, eq_false_of_ne_true h2, hne]
      · simp only [bumpFirst, if_neg hk]
        by_cases h2 : keyMatches l2 w2 b = true
        · have hne : ¬ (l = l2 ∧ w = w2) := by
            intro hc
            obtain ⟨hc1, hc2⟩ := hc
            subst hc1; subst hc2
            exact hk h2
          simp [balOf, List.find?, h2, hne]
        · simp only [balOf, List.find?, eq_false_of_ne_true h2]
          exact ih

/-- Helper: effect of the inner winners loop on every stored balance. -/
theorem balOf_foldl_winners (ws : List ℕ) (l l2 w2 : ℕ) :
    ∀ led, balOf (ws.foldl (fun acc w => bumpFirst l w acc) led) l2 w2
      = balOf led l2 w2 + (if l = l2 then (ws.count w2 : ℤ) else 0) := by
  induction ws with
  | nil => intro led; simp
  | cons w ws ih =>
      intro led
      rw [List.foldl_cons, ih, balOf_bumpFirst]
      by_cases h1 : l = l2 <;> by_cases h2 : w = w2 <;>
        simp [h1, h2, List.count_cons] <;> push_cast <;> ring

/-- Helper: effect of `update_cake_balance` on every stored balance — each
directed balance grows by the number of (loser, winner) combinations of the
game realising that pair. -/
theorem balOf_update_cake_balance (g : Game) (l2 w2 : ℕ) (led : List CakeBalance) :
    balOf (update_cake_balance g led) l2 w2
      = balOf led l2 w2 + ((losersOf g).count l2 : ℤ) * ((winnersOf g).count w2 : ℤ) := by
  unfold update_cake_balance
  generalize losersOf g = ls
  induction ls generalizing led with
  | nil => simp
  | cons l ls ih =>
      rw [List.foldl_cons, ih, balOf_foldl_winners]
      by_cases h1 : l = l2 <;>
        simp [h1, List.count_cons] <;> push_cast <;> ring

/-- Contribution of a single game to a directed balance during a rebuild. -/
def cakeContrib (g : Game) (l w : ℕ) : ℤ :=
  if is_shutout g then ((losersOf g).count l : ℤ) * ((winnersOf g).count w : ℤ) else 0

/-- Helper: effect of one rebuild step on every stored balance. -/
theorem balOf_applyCake (g : Game) (l w : ℕ) (led : List CakeBalance) :
    balOf (applyCake led g) l w = balOf led l w + cakeContrib g l w := by
  unfold applyCake cakeContrib
  by_cases h : is_shutout g = true
  · simp [h, balOf_update_cake_balance]
  · simp [h]

/-- Helper: effect of a whole rebuild fold on every stored balance. -/
theorem balOf_foldl_applyCake (gs : List Game) (l w : ℕ) :
    ∀ led, balOf (gs.foldl applyCake led) l w
      = balOf led l w + (gs.map fun g => cakeContrib g l w).sum := by
  induction gs with
  | nil => intro led; simp
  | cons g gs ih =>
      intro led
      rw [List.foldl_cons, ih, balOf_applyCake]
      simp [add_assoc]

/-- Rows of a well formed ledger carry no season and a positive balance. -/
def LedgerRowsOk (led : List CakeBalance) : Prop :=
  ∀ b ∈ led, b.season_id = none ∧ 1 ≤ b.balance

/-- Helper: one increment preserves row well formedness. -/
theorem ledgerRowsOk_bumpFirst (l w : ℕ) (led : List CakeBalance)
    (h : LedgerRowsOk led) : LedgerRowsOk (bumpFirst l w led) := by
  induction led with
  | nil =>
      intro b hb
      simp only [bumpFirst, List.mem_singleton] at hb
      subst hb
      exact ⟨rfl, by norm_num⟩
  | cons a rest ih =>
      intro b hb
      by_cases hk : keyMatches l w a = true
      · simp only [bumpFirst, if_pos hk, List.mem_cons] at hb
        rcases hb with hb | hb
        · subst hb
          have ha := h a (List.mem_cons_self a rest)
          refine ⟨ha.1, ?_⟩
          have hb2 : 1 ≤ a.balance := ha.2
          show 1 ≤ a.balance + 1
          omega
        · exact h b (List.mem_cons_of_mem a hb)
      · simp only [bumpFirst, if_neg hk, List.mem_cons] at hb
        rcases hb with hb | hb
        · subst hb
          exact h b (List.mem_cons_self b rest)
        · exact ih (fun c hc => h c (List.mem_cons_of_mem a hc)) b hb

/-- Helper: `update_cake_balance` preserves row well formedness. -/
theorem ledgerRowsOk_update (g : Game) (led : List CakeBalance)
    (h : LedgerRowsOk led) : LedgerRowsOk (update_cake_balance g led) := by
  unfold update_cake_balance
  generalize losersOf g = ls
  induction ls generalizing led with
  | nil => exact h
  | cons l ls ih =>
      rw [List.foldl_cons]
      apply ih
      generalize winnersOf g = ws
      induction ws generalizing led with
      | nil => exact h
      | cons w ws ihw =>
          rw [List.foldl_cons]
          exact ihw (bumpFirst l w led) (ledgerRowsOk_bumpFirst l w led h)

/-- Helper: a whole rebuild fold preserves row well formedness. -/
theorem ledgerRowsOk_foldl (gs : List Game) :
    ∀ led, LedgerRowsOk led → LedgerRowsOk (gs.foldl applyCake led) := by
  induction gs with
  | nil => exact fun led h => h
  | cons g gs ih =>
      intro led h
      rw [List.foldl_cons]
      apply ih
      unfold applyCake
      by_cases hs : is_shutout g = true
      · rw [if_pos hs]; exact ledgerRowsOk_update g led h
      · rw [if_neg hs]; exact h

/-- Helper: keys after one increment — unchanged when the pair already has a
row, extended by the new key otherwise. -/
theorem keysOf_bumpFirst (l w : ℕ) (led : List CakeBalance) :
    keysOf (bumpFirst l w led)
      = if led.any (keyMatches l w) then keysOf led else keysOf led ++ [(l, w)] := by
  induction led with
  | nil => simp [bumpFirst, keysOf]
  | cons a rest ih =>
      by_cases hk : keyMatches l w a = true
      · simp [bumpFirst, keysOf, hk, List.any_cons]
      · simp only [bumpFirst, if_neg hk, keysOf, List.map_cons, List.any_cons,
          eq_false_of_ne_true hk, Bool.false_or]
        show (a.debtor_id, a.creditor_id) :: keysOf (bumpFirst l w rest) = _
        rw [ih]
        by_cases ha : rest.any (keyMatches l w) = true
        · simp only [if_pos ha]
          rfl
        · simp only [if_neg ha]
          rfl

/-- Helper: a pair with no matching row is not among the keys. -/
theorem key_not_mem_of_not_any (l w : ℕ) (led : List CakeBalance)
    (h : led.any (keyMatches l w) = false) : (l, w) ∉ keysOf led := by
  intro hmem
  simp only [keysOf, List.mem_map] at hmem
  obtain ⟨b, hb, hkey⟩ := hmem
  have : keyMatches l w b = true := by
    simp only [keyMatches, Bool.and_eq_true, beq_iff_eq]
    exact ⟨congrArg Prod.fst hkey, congrArg Prod.snd hkey⟩
  rw [List.any_eq_false] at h
  exact absurd this (by simpa using h b hb)

/-- Helper: one increment preserves key uniqueness. -/
theorem nodup_keys_bumpFirst (l w : ℕ) (led : List CakeBalance)
    (h : (keysOf led).Nodup) : (keysOf (bumpFirst l w led)).Nodup := by
  rw [keysOf_bumpFirst]
  by_cases ha : led.any (keyMatches l w) = true
  · rwa [if_pos ha]
  · rw [if_neg ha]
    rw [List.nodup_append]
    exact ⟨h, List.nodup_singleton _,
      by
        intro x hx hx2
        simp only [List.mem_singleton] at hx2
        subst hx2
        exact key_not_mem_of_not_any l w led (eq_false_of_ne_true ha) hx⟩

/-- Helper: `update_cake_balance` preserves key uniqueness. -/
theorem nodup_keys_update (g : Game) (led : List CakeBalance)
    (h : (keysOf led).Nodup) : (keysOf (update_cake_balance g led)).Nodup := by
  unfold update_cake_balance
  generalize losersOf g = ls
  induction ls generalizing led with
  | nil => exact h
  | cons l ls ih =>
      rw [List.foldl_cons]
      apply ih
      generalize winnersOf g = ws
      induction ws generalizing led with
      | nil => exact h
      | cons w ws ihw =>
          rw [List.foldl_cons]
          exact ihw (bumpFirst l w led) (nodup_keys_bumpFirst l w led h)

/-- Helper: the rebuild fold preserves key uniqueness. -/
theorem nodup_keys_foldl (gs : List Game) :
    ∀ led, (keysOf led).Nodup → (keysOf (gs.foldl applyCake led)).Nodup := by
  induction gs with
  | nil => exact fun led h => h
  | cons g gs ih =>
      intro led h
      rw [List.foldl_cons]
      apply ih
      unfold applyCake
      by_cases hs : is_shutout g = true
      · rw [if_pos hs]; exact nodup_keys_update g led h
      · rw [if_neg hs]; exact h

/-- Helper: with unique keys, `find?` on a stored row's own key returns that
very row. -/
theorem find?_eq_some_of_mem (led : List CakeBalance) (b : CakeBalance)
    (hn : (keysOf led).Nodup) (hb : b ∈ led) :
    led.find? (keyMatches b.debtor_id b.creditor_id) = some b := by
  induction led with
  | nil => cases hb
  | cons a rest ih =>
      rcases List.mem_cons.mp hb with hb1 | hb1
      · subst hb1
        have : keyMatches b.debtor_id b.creditor_id b = true := by
          simp [keyMatches]
        simp [List.find?, this]
      · have hkey : keyMatches b.debtor_id b.creditor_id a = false := by
          by_contra hc
          have hc2 : keyMatches b.debtor_id b.creditor_id a = true := by
            revert hc; cases keyMatches b.debtor_id b.creditor_id a <;> simp
          have haeq : (a.debtor_id, a.creditor_id) = (b.debtor_id, b.creditor_id) := by
            simp only [keyMatches, Bool.and_eq_true, beq_iff_eq] at hc2
            rw [hc2.1, hc2.2]
          have hmem : (b.debtor_id, b.creditor_id) ∈ keysOf rest := by
            simp only [keysOf, List.mem_map]
            exact ⟨b, hb1, rfl⟩
          rw [keysOf, List.map_cons] at hn
          rw [List.nodup_cons] at hn
          exact hn.1 (haeq ▸ hmem)
        rw [List.find?]
        rw [hkey]
        exact ih (by
          rw [keysOf, List.map_cons, List.nodup_cons] at hn
          exact hn.2) hb1

/-- Helper: with unique keys and well formed rows, membership of a row is
equivalent to its stored balance being the ledger balance of its key. -/
theorem mem_iff_balOf (led : List CakeBalance) (b : CakeBalance)
    (hn : (keysOf led).Nodup) (hok : LedgerRowsOk led) :
    b ∈ led ↔ b.season_id = none ∧ 1 ≤ b.balance
      ∧ balOf led b.debtor_id b.creditor_id = b.balance := by
  constructor
  · intro hb
    refine ⟨(hok b hb).1, (hok b hb).2, ?_⟩
    rw [balOf, find?_eq_some_of_mem led b hn hb]
  · rintro ⟨hseason, hpos, hbal⟩
    rw [balOf] at hbal
    cases hfind : led.find? (keyMatches b.debtor_id b.creditor_id) with
    | none =>
        rw [hfind] at hbal
        simp at hbal
        omega
    | some c =>
        rw [hfind] at hbal
        simp only at hbal
        have hcmem := List.mem_of_find?_eq_some hfind
        have hcp := List.find?_some hfind
        simp only [keyMatches, Bool.and_eq_true, beq_iff_eq] at hcp
        have hcs := hok c hcmem
        have : c = b := by
          cases b; cases c
          simp only at hcp hbal hseason ⊢
          simp only [CakeBalance.mk.injEq]
          exact ⟨hcp.1, hcp.2, hbal, hcs.1.trans hseason.symm⟩
        rwa [this] at hcmem

/-- Helper: the rebuilt ledger realises exactly the per-pair contribution
sums of the game list. -/
theorem balOf_rebuild (gs : List Game) (l w : ℕ) :
    balOf (rebuild_cake_balances gs) l w = (gs.map fun g => cakeContrib g l w).sum := by
  unfold rebuild_cake_balances
  rw [balOf_foldl_applyCake]
  simp [balOf]

/-- C8: rebuilding the cake ledger from any permutation of a game list
yields exactly the same set of (debtor, creditor, balance) rows as
rebuilding from the original (chronological) order. -/
theorem cake_rebuild_perm_invariant (gs1 gs2 : List Game) (hperm : gs1.Perm gs2)
    (b : CakeBalance) :
    b ∈ rebuild_cake_balances gs1 ↔ b ∈ rebuild_cake_balances gs2 := by
  have h1 := mem_iff_balOf (rebuild_cake_balances gs1) b
    (nodup_keys_foldl gs1 [] (by simp [keysOf]))
    (ledgerRowsOk_foldl gs1 [] (by intro x hx; cases hx))
  have h2 := mem_iff_balOf (rebuild_cake_balances gs2) b
    (nodup_keys_foldl gs2 [] (by simp [keysOf]))
    (ledgerRowsOk_foldl gs2 [] (by intro x hx; cases hx))
  rw [h1, h2, balOf_rebuild, balOf_rebuild,
    List.Perm.sum_eq (hperm.map fun g => cakeContrib g b.debtor_id b.creditor_id)]

/-- Concrete shutout game in season 1 between players 1 (winner) and 2. -/
@[reducible] def cakeGameA : Game :=
  { start_time := 0
    game_type := GameType.t1v1
    team1_score := 10
    team2_score := 0
    season_id := some 1
    players := [{ player_id := 1, team := 1, is_winner := true, elo_change := none },
                { player_id := 2, team := 2, is_winner := false, elo_change := none }] }

/-- Concrete shutout game in season 2 between the same players. -/
@[reducible] def cakeGameB : Game :=
  { start_time := 1
    game_type := GameType.t1v1
    team1_score := 11
    team2_score := 0
    season_id := some 2
    players := [{ player_id := 1, team := 1, is_winner := true, elo_change := none },
                { player_id := 2, team := 2, is_winner := false, elo_change := none }] }

/-- Concrete non shutout game, to witness that non shutout games leave the
rebuild unchanged. -/
@[reducible] def plainGameC : Game :=
  { start_time := 2
    game_type := GameType.t1v1
    team1_score := 10
    team2_score := 8
    season_id := some 2
    players := [{ player_id := 1, team := 1, is_winner := true, elo_change := none },
                { player_id := 2, team := 2, is_winner := false, elo_change := none }] }

/-- Witness for C8 on a concrete pair of permuted game lists and a concrete
row. -/
theorem cake_rebuild_perm_invariant_witness :
    ({ debtor_id := 2, creditor_id := 1, balance := 2, season_id := none }
        ∈ rebuild_cake_balances [cakeGameA, cakeGameB, plainGameC]
      ↔ { debtor_id := 2, creditor_id := 1, balance := 2, season_id := none }
        ∈ rebuild_cake_balances [cakeGameB, cakeGameA, plainGameC]) :=
  cake_rebuild_perm_invariant [cakeGameA, cakeGameB, plainGameC]
    [cakeGameB, cakeGameA, plainGameC]
    (List.Perm.swap cakeGameB cakeGameA [plainGameC]) _

/-- C6 evidence: `update_cake_balance` ignores seasons entirely — two
shutout games of DIFFERENT seasons between the same pair are accumulated on
one single row whose season column is never set, instead of one row per
season carrying the game's season.  The cross product increment and the
creation at balance 1 are visible in the same evaluation. -/
theorem update_cake_balance_ignores_season :
    update_cake_balance cakeGameB (update_cake_balance cakeGameA [])
      = [{ debtor_id := 2, creditor_id := 1, balance := 2, season_id := none }]
    ∧ update_cake_balance cakeGameA []
      = [{ debtor_id := 2, creditor_id := 1, balance := 1, season_id := none }]
    ∧ is_shutout cakeGameA = true ∧ is_shutout cakeGameB = true
    ∧ cakeGameA.season_id ≠ cakeGameB.season_id :=
  ⟨rfl, rfl, rfl, rfl, by decide⟩

/-- Derived data touched by the recalculation orchestrator. -/
structure DerivedDB where
  games : List Game
  ratings : Ratings
  cakes : List CakeBalance

/-- Step 1 of `recalculate_all_derived_data`
(`services/recalculation_service.py` lines 18 to 27): null the stored
`elo_change` annotation of every participant row of the scope. -/
def clear_elo_changes (sid : Option ℕ) (games : List Game) : List Game :=
  match sid with
  | some s =>
      games.map fun g =>
        if g.season_id == some s then
          { g with players := g.players.map fun gp => { gp with elo_change := none } }
        else g
  | none =>
      games.map fun g =>
        { g with players := g.players.map fun gp => { gp with elo_change := none } }

/-- Parameter list of `recalculate_all_elo_ratings` as defined in
`services/elo_service.py` line 92: the function takes NO parameters. -/
def recalculate_all_elo_ratings_params : List String := []

/-- Parameter list of `recalculate_historical_snapshots` as defined in
`services/leaderboard_service.py` line 73: the function takes NO
parameters. -/
def recalculate_historical_snapshots_params : List String := []

/-- Python call semantics for keyword arguments: a call raises `TypeError`
unless every keyword argument names a parameter of the callee. -/
def acceptsKwargs (params kwargs : List String) : Bool :=
  kwargs.all fun k => params.contains k

/-- Translation of `recalculate_all_derived_data(season_id)` from
`services/recalculation_service.py` (lines 9 to 51).  Step 1 clears the
rating delta annotations.  Step 2 is the call
`recalculate_all_elo_ratings(season_id=season_id)`; the callee accepts no
keyword named `season_id`, so the call raises `TypeError` and the procedure
aborts there (`Except.error`).  The remaining steps (the rating replay,
the cake rebuild of lines 32 to 46 and the snapshot call of line 49, which
is the same kind of mismatched call) are translated behind the failing
guard and are unreachable. -/
noncomputable def recalculate_all_derived_data (sid : Option ℕ) (db : DerivedDB) :
    Except String DerivedDB :=
  let db1 : DerivedDB := { db with games := clear_elo_changes sid db.games }
  if acceptsKwargs recalculate_all_elo_ratings_params ["season_id"] then
    let db2 : DerivedDB := { db1 with ratings := recalculate_all_elo_ratings db1.games db1.ratings }
    let inScope : List Game :=
      match sid with
      | some s => sortGames (db2.games.filter fun g => g.season_id == some s)
      | none => sortGames db2.games
    let db3 : DerivedDB := { db2 with cakes := rebuild_cake_balances inScope }
    if acceptsKwargs recalculate_historical_snapshots_params ["season_id"] then
      Except.ok db3
    else
      Except.error "TypeError: recalculate_historical_snapshots takes no season_id keyword"
  else
    Except.error "TypeError: recalculate_all_elo_ratings takes no season_id keyword"

/-- C2 evidence: for every season scope (a concrete id or the unscoped
`none`) and every database state, `recalculate_all_derived_data` fails with
a `TypeError` at step 2 — the orchestrator passes `season_id=` to
`recalculate_all_elo_ratings`, which takes no parameters — so it never
performs the season scoped replay, cake rebuild or snapshot rebuild. -/
theorem recalculate_all_derived_data_raises (sid : Option ℕ) (db : DerivedDB) :
    recalculate_all_derived_data sid db =
      Except.error "TypeError: recalculate_all_elo_ratings takes no season_id keyword" := rfl

/-- Row of the `tournament_match` table (`models.py`, class
`TournamentMatch`).  Round 1 is the final; `next_match_id` points to the
match the winner advances into (none for the final). -/
structure TMatch where
  id : ℕ
  round_number : ℕ
  match_number : ℕ
  player1_id : Option ℕ
  player2_id : Option ℕ
  winner_id : Option ℕ
  game_id : Option ℕ
  next_match_id : Option ℕ
deriving DecidableEq, Repr

/-- Database id assigned to the match of a given round and position: the
source creates the final first and then rounds 2..R in ascending match
number order, with consecutive autoincrement ids starting at 0 here. -/
def matchId (r m : ℕ) : ℕ := 2 ^ (r - 1) + m - 2

/-- The freshly created match row of `generate_tournament_bracket` for
round `r`, match number `m` (players to be assigned later). -/
def mkMatch (r m : ℕ) : TMatch :=
  { id := matchId r m, round_number := r, match_number := m,
    player1_id := none, player2_id := none, winner_id := none, game_id := none,
    next_match_id := if r = 1 then none else some (matchId (r - 1) ((m + 1) / 2)) }

/-- All match rows of one round, in creation order. -/
def matchesOfRound (r : ℕ) : List TMatch :=
  (List.range' 1 (2 ^ (r - 1))).map (mkMatch r)

/-- The match tree created by the structural phase of
`generate_tournament_bracket` (`services/tournament_service.py` lines 38 to
63): the final (round 1) first, then each earlier round with
`next_match_id` wired to `match_map[(round - 1, (m + 1) // 2)]`. -/
def initialBracket (R : ℕ) : List TMatch :=
  (List.range' 1 R).flatMap matchesOfRound

/-- Lookup of a match row by id (`TournamentMatch.query.get`). -/
def findMatch (b : List TMatch) (mid : ℕ) : Option TMatch :=
  b.find? fun x => x.id == mid

/-- In place update of the row(s) with a given id, modelling mutation of
the ORM object with that id. -/
def setMatch (b : List TMatch) (mid : ℕ) (f : TMatch → TMatch) : List TMatch :=
  b.map fun x => if x.id == mid then f x else x

/-- The `order_by(TournamentMatch.match_number)` of the sibling query in
`advance_winner`. -/
def sortByMatchNumber (l : List TMatch) : List TMatch :=
  List.insertionSort (fun a b => a.match_number ≤ b.match_number) l

/-- Translation of `advance_winner(match, auto_advance_byes)` from
`services/tournament_service.py` (lines 115 to 156).  The argument `m` is
the (already updated) row object the source receives; `fuel` bounds the
recursion depth, which in the source strictly descends the next match
chain (each next match lives one round closer to the final), so any fuel
of at least the round count makes the model exact. -/
def advance_winner (fuel : ℕ) (auto : Bool) (b : List TMatch) (m : TMatch) : List TMatch :=
  match fuel with
  | 0 => b
  | Nat.succ fuel =>
    match m.winner_id, m.next_match_id with
    | some w, some nid =>
      match findMatch b nid with
      | none => b
      | some _ =>
        let parents := sortByMatchNumber (b.filter fun x => x.next_match_id == some nid)
        let isFirstSlot :=
          match parents.head? with
          | some p => p.id == m.id
          | none => false
        let b1 :=
          if isFirstSlot then setMatch b nid fun x => { x with player1_id := some w }
          else setMatch b nid fun x => { x with player2_id := some w }
        if auto then
          let parents2 := b1.filter fun x => x.next_match_id == some nid
          let resolved := parents2.all fun x => x.winner_id.isSome
          if resolved then
            match findMatch b1 nid with
            | none => b1
            | some next1 =>
              if next1.player1_id.isSome && next1.player2_id.isNone then
                let b2 := setMatch b1 nid fun x => { x with winner_id := x.player1_id }
                match findMatch b2 nid with
                | none => b2
                | some next2 => advance_winner fuel true b2 next2
              else if next1.player2_id.isSome && next1.player1_id.isNone then
                let b2 := setMatch b1 nid fun x => { x with winner_id := x.player2_id }
                match findMatch b2 nid with
                | none => b2
                | some next2 => advance_winner fuel true b2 next2
              else b1
          else b1
        else b1
    | _, _ => b

/-- Translation of `get_seeding_for_round(n)` from
`services/tournament_service.py` (lines 77 to 88): the standard bracket
seeding permutation ([1,2] for one round, each doubling interleaving a seed
with its complement).  The source is only called with n at least 1. -/
def get_seeding_for_round : ℕ → List ℕ
  | 0 => [1, 2]
  | 1 => [1, 2]
  | Nat.succ (Nat.succ k) =>
      (get_seeding_for_round (k + 1)).flatMap fun s => [s, 2 ^ (k + 2) + 1 - s]

/-- One iteration of the player assignment loop of
`generate_tournament_bracket` (`services/tournament_service.py` lines 92
to 109) for the first round match at position `i`: assign the two seeded
players (a seed beyond the player count is a bye, leaving the slot empty),
and when exactly one slot is real, declare that player winner and advance
with `auto_advance_byes=True`. -/
def assignFirstRound (playerIds : List ℕ) (n R : ℕ) (b : List TMatch) (i : ℕ) : List TMatch :=
  let seeding := get_seeding_for_round R
  let seed1 := seeding.getD (i * 2) 0
  let seed2 := seeding.getD (i * 2 + 1) 0
  let p1 : Option ℕ := if seed1 ≤ n then playerIds.get? (seed1 - 1) else none
  let p2 : Option ℕ := if seed2 ≤ n then playerIds.get? (seed2 - 1) else none
  let mid := matchId R (i + 1)
  let b1 := setMatch b mid fun x => { x with player1_id := p1, player2_id := p2 }
  if p1.isSome && p2.isNone then
    let b2 := setMatch b1 mid fun x => { x with winner_id := x.player1_id }
    match findMatch b2 mid with
    | some m => advance_winner R true b2 m
    | none => b2
  else if p2.isSome && p1.isNone then
    let b2 := setMatch b1 mid fun x => { x with winner_id := x.player2_id }
    match findMatch b2 mid with
    | some m => advance_winner R true b2 m
    | none => b2
  else b1

/-- Helper: `find?` over a contiguous range returns the least element
satisfying the predicate. -/
theorem find?_range'_least (p : ℕ → Bool) (K : ℕ) (hpK : p K = true)
    (hmin : ∀ j, j < K → p j = false) :
    ∀ (c s : ℕ), s ≤ K → K < s + c → (List.range' s c).find? p = some K := by
  intro c
  induction c with
  | zero => intro s h1 h2; omega
  | succ c ih =>
      intro s h1 h2
      rw [List.range'_succ]
      by_cases hsK : s = K
      · subst hsK
        rw [List.find?_cons_of_pos _ hpK]
      · rw [List.find?_cons_of_neg _ (by rw [hmin s (by omega)]; simp)]
        exact ih (s + 1) (by omega) (by omega)

/-- The number of rounds computed by the source,
`math.ceil(math.log2(num_players))`, as the least `k` with `n ≤ 2 ^ k`
(searched structurally so that it evaluates by kernel reduction). -/
def ceilLog2 (n : ℕ) : ℕ :=
  ((List.range (n + 1)).find? fun k => decide (n ≤ 2 ^ k)).getD 0

/-- The bounded search agrees with the mathematical ceiling logarithm. -/
theorem ceilLog2_eq_clog (n : ℕ) : ceilLog2 n = Nat.clog 2 n := by
  unfold ceilLog2
  have hpK : (fun k => decide (n ≤ 2 ^ k)) (Nat.clog 2 n) = true := by
    simp only [decide_eq_true_eq]
    exact Nat.le_pow_clog (by norm_num) n
  have hmin : ∀ j, j < Nat.clog 2 n → (fun k => decide (n ≤ 2 ^ k)) j = false := by
    intro j hj
    simp only [decide_eq_false_iff_not]
    intro hc
    exact absurd ((Nat.le_pow_iff_clog_le (by norm_num)).mp hc) (by omega)
  have hKn : Nat.clog 2 n ≤ n :=
    (Nat.le_pow_iff_clog_le (by norm_num)).mp (Nat.lt_two_pow n).le
  rw [List.range_eq_range',
    find?_range'_least _ (Nat.clog 2 n) hpK hmin (n + 1) 0 (by omega) (by omega)]
  rfl

/-- Translation of `generate_tournament_bracket(tournament_id, player_ids)`
from `services/tournament_service.py` (lines 8 to 112), as a function of
the player list in its post shuffle order (the source shuffles in place;
the claims quantify over every order).  Returns `none` for fewer than two
players, otherwise the match rows after structural creation, seeded player
assignment and bye auto advancement. -/
def generate_tournament_bracket (playerIds : List ℕ) : Option (List TMatch) :=
  if playerIds.length < 2 then none
  else
    let n := playerIds.length
    let num_rounds := ceilLog2 n
    some ((List.range (2 ^ (num_rounds - 1))).foldl
      (assignFirstRound playerIds n num_rounds) (initialBracket num_rounds))

def shapeOf (x : TMatch) : ℕ × ℕ × ℕ × Option ℕ :=
  (x.id, x.round_number, x.match_number, x.next_match_id)

theorem map_shape_setMatch (b : List TMatch) (mid : ℕ) (f : TMatch → TMatch)
    (hf : ∀ x, shapeOf (f x) = shapeOf x) :
    (setMatch b mid f).map shapeOf = b.map shapeOf := by
  unfold setMatch
  rw [List.map_map]
  apply List.map_congr_left
  intro x hx
  by_cases h : (x.id == mid) = true
  · show shapeOf (if x.id == mid then f x else x) = shapeOf x
    rw [if_pos h]
    exact hf x
  · show shapeOf (if x.id == mid then f x else x) = shapeOf x
    rw [if_neg h]

theorem map_shape_advance (fuel : ℕ) (auto : Bool) (b : List TMatch) (m : TMatch) :
    (advance_winner fuel auto b m).map shapeOf = b.map shapeOf := by
  induction fuel generalizing auto b m with
  | zero => rfl
  | succ fuel ih =>
      obtain ⟨mid0, r0, mn0, p10, p20, w0, g0, nx0⟩ := m
      cases w0 with
      | none => rfl
      | some w =>
      cases nx0 with
      | none => rfl
      | some nid =>
      rw [advance_winner]
      dsimp only
      cases hfind : findMatch b nid with
      | none => rfl
      | some x0 =>
      repeat' split
      all_goals
        first
        | rfl
        | (refine map_shape_setMatch _ _ _ ?_
           intro x
           rfl)
        | (refine (map_shape_setMatch _ _ _ ?_).trans (map_shape_setMatch _ _ _ ?_) <;>
            · intro x
              rfl)
        | (refine (ih _ _ _).trans ((map_shape_setMatch _ _ _ ?_).trans
              (map_shape_setMatch _ _ _ ?_)) <;>
            · intro x
              rfl)

theorem map_shape_assign (ids : List ℕ) (n R : ℕ) (b : List TMatch) (i : ℕ) :
    (assignFirstRound ids n R b i).map shapeOf = b.map shapeOf := by
  unfold assignFirstRound
  dsimp only
  repeat' split
  all_goals
    first
    | rfl
    | (refine map_shape_setMatch _ _ _ ?_
       intro x
       rfl)
    | (refine (map_shape_setMatch _ _ _ ?_).trans (map_shape_setMatch _ _ _ ?_) <;>
        · intro x
          rfl)
    | (refine (map_shape_advance _ _ _ _).trans ((map_shape_setMatch _ _ _ ?_).trans
          (map_shape_setMatch _ _ _ ?_)) <;>
        · intro x
          rfl)

theorem length_matchesOfRound (r : ℕ) : (matchesOfRound r).length = 2 ^ (r - 1) := by
  simp [matchesOfRound]

theorem initialBracket_succ (R : ℕ) :
    initialBracket (R + 1) = initialBracket R ++ matchesOfRound (R + 1) := by
  unfold initialBracket
  rw [List.range'_concat, List.flatMap_append]
  simp only [List.flatMap_cons, List.flatMap_nil, List.append_nil, one_mul]
  rw [Nat.add_comm 1 R]

theorem length_initialBracket (R : ℕ) : (initialBracket R).length = 2 ^ R - 1 := by
  induction R with
  | zero => rfl
  | succ R ih =>
      rw [initialBracket_succ, List.length_append, ih, length_matchesOfRound]
      have h1 : 1 ≤ 2 ^ R := Nat.one_le_two_pow
      have h2 : (2 : ℕ) ^ (R + 1) = 2 ^ R * 2 := pow_succ 2 R
      simp only [Nat.add_sub_cancel]
      omega

theorem mem_initialBracket {x : TMatch} {R : ℕ} :
    x ∈ initialBracket R
      ↔ ∃ r m, 1 ≤ r ∧ r ≤ R ∧ 1 ≤ m ∧ m ≤ 2 ^ (r - 1) ∧ x = mkMatch r m := by
  unfold initialBracket matchesOfRound
  rw [List.mem_flatMap]
  constructor
  · rintro ⟨r, hr, hx⟩
    rw [List.mem_range'_1] at hr
    rw [List.mem_map] at hx
    obtain ⟨m, hm, hxm⟩ := hx
    rw [List.mem_range'_1] at hm
    exact ⟨r, m, hr.1, by omega, hm.1, by omega, hxm.symm⟩
  · rintro ⟨r, m, h1, h2, h3, h4, h5⟩
    refine ⟨r, ?_, ?_⟩
    · rw [List.mem_range'_1]; omega
    · rw [List.mem_map]
      exact ⟨m, by rw [List.mem_range'_1]; omega, h5.symm⟩

theorem round_mkMatch (r m : ℕ) : (mkMatch r m).round_number = r := rfl

theorem count_round_initialBracket (R r : ℕ) (h1 : 1 ≤ r) (h2 : r ≤ R) :
    ((initialBracket R).countP fun x => x.round_number == r) = 2 ^ (r - 1) := by
  induction R with
  | zero => omega
  | succ R ih =>
      rw [initialBracket_succ, List.countP_append]
      by_cases hr : r = R + 1
      · subst hr
        have hz : ((initialBracket R).countP fun x => x.round_number == R + 1) = 0 := by
          rw [List.countP_eq_zero]
          intro x hx
          obtain ⟨r', m', hr1, hr2, _, _, hx5⟩ := mem_initialBracket.mp hx
          subst hx5
          simp only [round_mkMatch, beq_iff_eq]
          omega
        have hall : ((matchesOfRound (R + 1)).countP fun x => x.round_number == R + 1)
            = (matchesOfRound (R + 1)).length := by
          rw [List.countP_eq_length]
          intro x hx
          unfold matchesOfRound at hx
          rw [List.mem_map] at hx
          obtain ⟨m, _, hxm⟩ := hx
          rw [← hxm]
          simp [round_mkMatch]
        rw [hz, hall, length_matchesOfRound]
        omega
      · have hz : ((matchesOfRound (R + 1)).countP fun x => x.round_number == r) = 0 := by
          rw [List.countP_eq_zero]
          intro x hx
          unfold matchesOfRound at hx
          rw [List.mem_map] at hx
          obtain ⟨m, _, hxm⟩ := hx
          rw [← hxm]
          simp only [round_mkMatch, beq_iff_eq]
          omega
        rw [hz, ih (by omega)]
        omega

theorem next_isSome_initialBracket (R : ℕ) (x : TMatch) (hx : x ∈ initialBracket R)
    (hr : x.round_number ≠ 1) : x.next_match_id.isSome = true := by
  obtain ⟨r, m, h1, _, _, _, h5⟩ := mem_initialBracket.mp hx
  subst h5
  rw [round_mkMatch] at hr
  simp [mkMatch, hr]

theorem map_matchId_range' (r : ℕ) : ∀ (cnt s : ℕ), 1 ≤ s →
    (List.range' s cnt).map (matchId r) = List.range' (matchId r s) cnt := by
  intro cnt
  induction cnt with
  | zero => intro s hs; rfl
  | succ cnt ih =>
      intro s hs
      rw [List.range'_succ, List.map_cons, ih (s + 1) (by omega), List.range'_succ]
      have heq : matchId r (s + 1) = matchId r s + 1 := by
        unfold matchId
        have : 1 ≤ 2 ^ (r - 1) := Nat.one_le_two_pow
        omega
      rw [heq]

theorem ids_initialBracket (R : ℕ) :
    ((initialBracket R).map fun x => x.id) = List.range (2 ^ R - 1) := by
  induction R with
  | zero => rfl
  | succ R ih =>
      rw [initialBracket_succ, List.map_append, ih]
      have hmor : ((matchesOfRound (R + 1)).map fun x => x.id)
          = List.range' (2 ^ R - 1) (2 ^ R) := by
        unfold matchesOfRound
        rw [List.map_map]
        have hcomp : ((fun x : TMatch => x.id) ∘ mkMatch (R + 1)) = matchId (R + 1) := rfl
        rw [hcomp]
        simp only [Nat.add_sub_cancel]
        rw [map_matchId_range' (R + 1) (2 ^ R) 1 (by omega)]
        have : matchId (R + 1) 1 = 2 ^ R - 1 := by
          unfold matchId
          simp only [Nat.add_sub_cancel]
          have : 1 ≤ 2 ^ R := Nat.one_le_two_pow
          omega
        rw [this]
      rw [hmor, List.range_eq_range', List.range_eq_range']
      have happ := List.range'_append_1 0 (2 ^ R - 1) (2 ^ R)
      rw [Nat.zero_add] at happ
      rw [happ]
      have h1 : 1 ≤ 2 ^ R := Nat.one_le_two_pow
      have h2 : (2 : ℕ) ^ (R + 1) = 2 ^ R * 2 := pow_succ 2 R
      congr 1
      omega

theorem findMatch_eq_of_mem (b : List TMatch) (x : TMatch)
    (hn : (b.map fun y => y.id).Nodup) (hx : x ∈ b) :
    findMatch b x.id = some x := by
  induction b with
  | nil => cases hx
  | cons a rest ih =>
      rcases List.mem_cons.mp hx with h | h
      · subst h
        simp [findMatch, List.find?]
      · rw [List.map_cons, List.nodup_cons] at hn
        have hne : (a.id == x.id) = false := by
          refine beq_eq_false_iff_ne.mpr ?_
          intro hc
          exact hn.1 (hc ▸ List.mem_map_of_mem (fun y => y.id) h)
        show List.find? (fun y => y.id == x.id) (a :: rest) = some x
        rw [List.find?_cons_of_neg _ (by simp [hne]), ← findMatch]
        exact ih hn.2 h

theorem findMatch_setMatch (b : List TMatch) (nid mid : ℕ) (f : TMatch → TMatch)
    (hid : ∀ x, (f x).id = x.id) :
    findMatch (setMatch b nid f) mid
      = if mid = nid then (findMatch b mid).map f else findMatch b mid := by
  induction b with
  | nil => unfold findMatch setMatch; split <;> rfl
  | cons a rest ih =>
      by_cases han : (a.id == nid) = true
      · by_cases ham : (a.id == mid) = true
        · have hmn : mid = nid := (beq_iff_eq.mp ham).symm.trans (beq_iff_eq.mp han)
          have h1 : ((f a).id == mid) = true := by rw [hid a]; exact ham
          show List.find? (fun y => y.id == mid)
              ((if a.id == nid then f a else a) :: setMatch rest nid f) = _
          rw [if_pos han, if_pos hmn]
          simp [findMatch, List.find?, h1, ham]
        · have hmn : ¬ mid = nid := by
            intro hc
            exact ham (by rw [hc]; exact han)
          have h1 : ((f a).id == mid) = false := by rw [hid a]; exact eq_false_of_ne_true ham
          show List.find? (fun y => y.id == mid)
              ((if a.id == nid then f a else a) :: setMatch rest nid f) = _
          rw [if_pos han, if_neg hmn]
          simp only [findMatch, List.find?, h1, eq_false_of_ne_true ham]
          have h2 := ih
          rw [if_neg hmn] at h2
          exact h2
      · by_cases ham : (a.id == mid) = true
        · have hmn : ¬ mid = nid := by
            intro hc
            exact han (by rw [← hc]; exact ham)
          show List.find? (fun y => y.id == mid)
              ((if a.id == nid then f a else a) :: setMatch rest nid f) = _
          rw [if_neg han, if_neg hmn]
          simp [findMatch, List.find?, ham]
        · show List.find? (fun y => y.id == mid)
              ((if a.id == nid then f a else a) :: setMatch rest nid f) = _
          rw [if_neg han]
          simp only [findMatch, List.find?, eq_false_of_ne_true ham]
          exact ih

/-- Matches whose next pointer always targets an id below `K`. -/
def lowNext (K : ℕ) (b : List TMatch) : Prop :=
  ∀ x ∈ b, ∀ nid, x.next_match_id = some nid → nid < K

theorem lowNext_of_shape (K : ℕ) (b b0 : List TMatch)
    (h : b.map shapeOf = b0.map shapeOf) (h0 : lowNext K b0) : lowNext K b := by
  intro x hx nid hnid
  have hmem : shapeOf x ∈ b0.map shapeOf := h ▸ List.mem_map_of_mem shapeOf hx
  rw [List.mem_map] at hmem
  obtain ⟨y, hy, hsy⟩ := hmem
  have hnext : y.next_match_id = x.next_match_id := congrArg (fun s => s.2.2.2) hsy
  exact h0 y hy nid (hnext.trans hnid)

theorem lowNext_initialBracket (R : ℕ) :
    lowNext (2 ^ (R - 1) - 1) (initialBracket R) := by
  intro x hx nid hnid
  obtain ⟨r, m, h1, h2, h3, h4, h5⟩ := mem_initialBracket.mp hx
  subst h5
  by_cases hr1 : r = 1
  · subst hr1
    simp [mkMatch] at hnid
  · simp only [mkMatch, if_neg hr1] at hnid
    have hnid2 : nid = matchId (r - 1) ((m + 1) / 2) := (Option.some.injEq _ _ ▸ hnid).symm
    subst hnid2
    unfold matchId
    have hidx : r - 1 - 1 = r - 2 := by omega
    rw [hidx]
    have e1 : (2 : ℕ) ^ (r - 1) = 2 * 2 ^ (r - 2) := by
      have : r - 1 = (r - 2) + 1 := by omega
      rw [this, pow_succ]
      ring
    have e2 : (2 : ℕ) ^ (r - 1) ≤ 2 ^ (R - 1) := Nat.pow_le_pow_right (by omega) (by omega)
    have e3 : 1 ≤ (2 : ℕ) ^ (r - 2) := Nat.one_le_two_pow
    omega

theorem advance_preserves_high (K : ℕ) (mid : ℕ) (hmid : K ≤ mid) (fuel : ℕ) :
    ∀ (auto : Bool) (b : List TMatch) (m : TMatch), lowNext K b →
    (∀ nid, m.next_match_id = some nid → nid < K) →
    findMatch (advance_winner fuel auto b m) mid = findMatch b mid := by
  induction fuel with
  | zero => intro auto b m hlow hm; rfl
  | succ fuel ih =>
      intro auto b m hlow hm
      obtain ⟨mid0, r0, mn0, p10, p20, w0, g0, nx0⟩ := m
      cases w0 with
      | none => rfl
      | some w =>
      cases nx0 with
      | none => rfl
      | some nid =>
      have hnid : nid < K := hm nid rfl
      have hne : mid ≠ nid := by omega
      rw [advance_winner]
      dsimp only
      cases hfind : findMatch b nid with
      | none => rfl
      | some x0 =>
      have hset : ∀ (bb : List TMatch) (f : TMatch → TMatch), (∀ x, (f x).id = x.id) →
          findMatch (setMatch bb nid f) mid = findMatch bb mid := by
        intro bb f hf
        rw [findMatch_setMatch bb nid mid f hf, if_neg hne]
      have hs1 : ∀ bb, findMatch (setMatch bb nid fun x => { x with player1_id := some w }) mid
          = findMatch bb mid := fun bb => hset bb _ (fun x => rfl)
      have hs2 : ∀ bb, findMatch (setMatch bb nid fun x => { x with player2_id := some w }) mid
          = findMatch bb mid := fun bb => hset bb _ (fun x => rfl)
      have hw1 : ∀ bb, findMatch (setMatch bb nid fun x => { x with winner_id := x.player1_id }) mid
          = findMatch bb mid := fun bb => hset bb _ (fun x => rfl)
      have hw2 : ∀ bb, findMatch (setMatch bb nid fun x => { x with winner_id := x.player2_id }) mid
          = findMatch bb mid := fun bb => hset bb _ (fun x => rfl)
      have hadv : ∀ (bb : List TMatch) (mm : TMatch), bb.map shapeOf = b.map shapeOf →
          findMatch bb nid = some mm →
          findMatch (advance_winner fuel true bb mm) mid = findMatch bb mid := by
        intro bb mm hsh hfind2
        have hlow2 : lowNext K bb := lowNext_of_shape K bb b hsh hlow
        exact ih true bb mm hlow2
          (fun nid2 h2 => hlow2 mm (List.mem_of_find?_eq_some hfind2) nid2 h2)
      repeat' split
      all_goals
        first
        | rfl
        | (rw [hs1])
        | (rw [hs2])
        | (rename_i next2 heq
           rw [hadv _ next2 (by
                refine (map_shape_setMatch _ _ _ ?_).trans (map_shape_setMatch _ _ _ ?_) <;>
                  · intro x
                    rfl) heq, hw1, hs1])
        | (rename_i next2 heq
           rw [hadv _ next2 (by
                refine (map_shape_setMatch _ _ _ ?_).trans (map_shape_setMatch _ _ _ ?_) <;>
                  · intro x
                    rfl) heq, hw1, hs2])
        | (rename_i next2 heq
           rw [hadv _ next2 (by
                refine (map_shape_setMatch _ _ _ ?_).trans (map_shape_setMatch _ _ _ ?_) <;>
                  · intro x
                    rfl) heq, hw2, hs1])
        | (rename_i next2 heq
           rw [hadv _ next2 (by
                refine (map_shape_setMatch _ _ _ ?_).trans (map_shape_setMatch _ _ _ ?_) <;>
                  · intro x
                    rfl) heq, hw2, hs2])
        | (rw [hw1, hs1])
        | (rw [hw1, hs2])
        | (rw [hw2, hs1])
        | (rw [hw2, hs2])

/-- The final contents of the first round match at position `i` after the
assignment loop: seeded players (byes for seeds beyond the player count)
and, for a single real player, that player as winner. -/
def finalRow (ids : List ℕ) (n R i : ℕ) : TMatch :=
  let seeding := get_seeding_for_round R
  let seed1 := seeding.getD (i * 2) 0
  let seed2 := seeding.getD (i * 2 + 1) 0
  let p1 : Option ℕ := if seed1 ≤ n then ids.get? (seed1 - 1) else none
  let p2 : Option ℕ := if seed2 ≤ n then ids.get? (seed2 - 1) else none
  { mkMatch R (i + 1) with
    player1_id := p1, player2_id := p2,
    winner_id := if p1.isSome && p2.isNone then p1
      else if p2.isSome && p1.isNone then p2 else none }

theorem assignFirstRound_preserves_other (ids : List ℕ) (n R : ℕ) (b : List TMatch)
    (i mid : ℕ) (hsh : b.map shapeOf = (initialBracket R).map shapeOf)
    (hmid : 2 ^ (R - 1) - 1 ≤ mid) (hne : mid ≠ matchId R (i + 1)) :
    findMatch (assignFirstRound ids n R b i) mid = findMatch b mid := by
  have hlow : lowNext (2 ^ (R - 1) - 1) b :=
    lowNext_of_shape _ b (initialBracket R) hsh (lowNext_initialBracket R)
  have hadv : ∀ (bb : List TMatch) (mm : TMatch), bb.map shapeOf = b.map shapeOf →
      findMatch bb (matchId R (i + 1)) = some mm →
      findMatch (advance_winner R true bb mm) mid = findMatch bb mid := by
    intro bb mm hsh2 hfind2
    have hlow2 : lowNext (2 ^ (R - 1) - 1) bb := lowNext_of_shape _ bb b hsh2 hlow
    exact advance_preserves_high _ mid hmid R true bb mm hlow2
      (fun nid2 h2 => hlow2 mm (List.mem_of_find?_eq_some hfind2) nid2 h2)
  have hsetSlots : ∀ (q1 q2 : Option ℕ),
      findMatch (setMatch b (matchId R (i + 1))
        fun x => { x with player1_id := q1, player2_id := q2 }) mid = findMatch b mid := by
    intro q1 q2
    rw [findMatch_setMatch b (matchId R (i + 1)) mid
      (fun x => { x with player1_id := q1, player2_id := q2 }) (fun x => rfl), if_neg hne]
  have hsetW1 : ∀ bb, findMatch (setMatch bb (matchId R (i + 1))
      fun x => { x with winner_id := x.player1_id }) mid = findMatch bb mid := by
    intro bb
    rw [findMatch_setMatch bb (matchId R (i + 1)) mid
      (fun x => { x with winner_id := x.player1_id }) (fun x => rfl), if_neg hne]
  have hsetW2 : ∀ bb, findMatch (setMatch bb (matchId R (i + 1))
      fun x => { x with winner_id := x.player2_id }) mid = findMatch bb mid := by
    intro bb
    rw [findMatch_setMatch bb (matchId R (i + 1)) mid
      (fun x => { x with winner_id := x.player2_id }) (fun x => rfl), if_neg hne]
  unfold assignFirstRound
  dsimp only
  repeat' split
  all_goals
    first
    | (rw [hsetSlots _ _])
    | (rw [hsetW1, hsetSlots _ _])
    | (rw [hsetW2, hsetSlots _ _])
    | (rename_i next2 heq
       rw [hadv _ next2 (by
            refine (map_shape_setMatch _ _ _ ?_).trans (map_shape_setMatch _ _ _ ?_) <;>
              · intro x
                rfl) heq, hsetW1, hsetSlots _ _])
    | (rename_i next2 heq
       rw [hadv _ next2 (by
            refine (map_shape_setMatch _ _ _ ?_).trans (map_shape_setMatch _ _ _ ?_) <;>
              · intro x
                rfl) heq, hsetW2, hsetSlots _ _])

theorem assignFirstRound_own_row (ids : List ℕ) (n R : ℕ) (b : List TMatch) (i : ℕ)
    (hsh : b.map shapeOf = (initialBracket R).map shapeOf)
    (hrow : findMatch b (matchId R (i + 1)) = some (mkMatch R (i + 1))) :
    findMatch (assignFirstRound ids n R b i) (matchId R (i + 1))
      = some (finalRow ids n R i) := by
  have hmid : 2 ^ (R - 1) - 1 ≤ matchId R (i + 1) := by
    unfold matchId
    have : 1 ≤ (2 : ℕ) ^ (R - 1) := Nat.one_le_two_pow
    omega
  have hlow : lowNext (2 ^ (R - 1) - 1) b :=
    lowNext_of_shape _ b (initialBracket R) hsh (lowNext_initialBracket R)
  unfold assignFirstRound finalRow
  dsimp only
  generalize hp1 : (if (get_seeding_for_round R).getD (i * 2) 0 ≤ n then
      ids.get? ((get_seeding_for_round R).getD (i * 2) 0 - 1) else none) = p1
  generalize hp2 : (if (get_seeding_for_round R).getD (i * 2 + 1) 0 ≤ n then
      ids.get? ((get_seeding_for_round R).getD (i * 2 + 1) 0 - 1) else none) = p2
  have hb1 : findMatch (setMatch b (matchId R (i + 1))
      fun x => { x with player1_id := p1, player2_id := p2 }) (matchId R (i + 1))
      = some { mkMatch R (i + 1) with player1_id := p1, player2_id := p2 } := by
    rw [findMatch_setMatch b (matchId R (i + 1)) (matchId R (i + 1))
      (fun x => { x with player1_id := p1, player2_id := p2 }) (fun x => rfl),
      if_pos rfl, hrow]
    rfl
  by_cases hc1 : (p1.isSome && p2.isNone) = true
  · rw [if_pos hc1, if_pos hc1]
    have hb2 : findMatch (setMatch (setMatch b (matchId R (i + 1))
        fun x => { x with player1_id := p1, player2_id := p2 }) (matchId R (i + 1))
        fun x => { x with winner_id := x.player1_id }) (matchId R (i + 1))
        = some { mkMatch R (i + 1) with
                   player1_id := p1, player2_id := p2, winner_id := p1 } := by
      rw [findMatch_setMatch _ (matchId R (i + 1)) (matchId R (i + 1))
        (fun x => { x with winner_id := x.player1_id }) (fun x => rfl),
        if_pos rfl, hb1]
      rfl
    rw [hb2]
    dsimp only
    have hlow2 : lowNext (2 ^ (R - 1) - 1) (setMatch (setMatch b (matchId R (i + 1))
        fun x => { x with player1_id := p1, player2_id := p2 }) (matchId R (i + 1))
        fun x => { x with winner_id := x.player1_id }) := by
      refine lowNext_of_shape _ _ b ?_ hlow
      refine (map_shape_setMatch _ _ _ ?_).trans (map_shape_setMatch _ _ _ ?_) <;>
        · intro x
          rfl
    rw [advance_preserves_high _ (matchId R (i + 1)) hmid R true _ _ hlow2
      (fun nid2 h2 => hlow2 _ (List.mem_of_find?_eq_some hb2) nid2 h2), hb2]
  · rw [if_neg hc1, if_neg hc1]
    by_cases hc2 : (p2.isSome && p1.isNone) = true
    · rw [if_pos hc2, if_pos hc2]
      have hb2 : findMatch (setMatch (setMatch b (matchId R (i + 1))
          fun x => { x with player1_id := p1, player2_id := p2 }) (matchId R (i + 1))
          fun x => { x with winner_id := x.player2_id }) (matchId R (i + 1))
          = some { mkMatch R (i + 1) with
                     player1_id := p1, player2_id := p2, winner_id := p2 } := by
        rw [findMatch_setMatch _ (matchId R (i + 1)) (matchId R (i + 1))
          (fun x => { x with winner_id := x.player2_id }) (fun x => rfl),
          if_pos rfl, hb1]
        rfl
      rw [hb2]
      dsimp only
      have hlow2 : lowNext (2 ^ (R - 1) - 1) (setMatch (setMatch b (matchId R (i + 1))
          fun x => { x with player1_id := p1, player2_id := p2 }) (matchId R (i + 1))
          fun x => { x with winner_id := x.player2_id }) := by
        refine lowNext_of_shape _ _ b ?_ hlow
        refine (map_shape_setMatch _ _ _ ?_).trans (map_shape_setMatch _ _ _ ?_) <;>
          · intro x
            rfl
      rw [advance_preserves_high _ (matchId R (i + 1)) hmid R true _ _ hlow2
        (fun nid2 h2 => hlow2 _ (List.mem_of_find?_eq_some hb2) nid2 h2), hb2]
    · rw [if_neg hc2, if_neg hc2]
      exact hb1

theorem generate_fold_rows (ids : List ℕ) (n R : ℕ) (hR : 1 ≤ R) :
    ∀ k, k ≤ 2 ^ (R - 1) →
    ((List.range k).foldl (assignFirstRound ids n R) (initialBracket R)).map shapeOf
        = (initialBracket R).map shapeOf
    ∧ (∀ j, j < k →
        findMatch ((List.range k).foldl (assignFirstRound ids n R) (initialBracket R))
          (matchId R (j + 1)) = some (finalRow ids n R j))
    ∧ (∀ j, k ≤ j → j < 2 ^ (R - 1) →
        findMatch ((List.range k).foldl (assignFirstRound ids n R) (initialBracket R))
          (matchId R (j + 1)) = some (mkMatch R (j + 1))) := by
  intro k
  induction k with
  | zero =>
      intro hk
      refine ⟨rfl, fun j hj => absurd hj (by omega), fun j hj1 hj2 => ?_⟩
      have hnodup : ((initialBracket R).map fun x => x.id).Nodup := by
        rw [ids_initialBracket]
        exact List.nodup_range _
      have hmem : mkMatch R (j + 1) ∈ initialBracket R :=
        mem_initialBracket.mpr ⟨R, j + 1, hR, le_refl R, by omega, by omega, rfl⟩
      exact findMatch_eq_of_mem (initialBracket R) (mkMatch R (j + 1)) hnodup hmem
  | succ k ih =>
      intro hk
      obtain ⟨ihs, ihdone, ihtodo⟩ := ih (by omega)
      have hone : 1 ≤ (2 : ℕ) ^ (R - 1) := Nat.one_le_two_pow
      refine ⟨?_, ?_, ?_⟩
      · rw [List.range_succ, List.foldl_append]
        simp only [List.foldl_cons, List.foldl_nil]
        exact (map_shape_assign ids n R _ k).trans ihs
      · intro j hj
        rw [List.range_succ, List.foldl_append]
        simp only [List.foldl_cons, List.foldl_nil]
        by_cases hjk : j = k
        · subst hjk
          exact assignFirstRound_own_row ids n R _ j ihs (ihtodo j (le_refl j) (by omega))
        · rw [assignFirstRound_preserves_other ids n R _ k (matchId R (j + 1)) ihs
            (by unfold matchId; omega) (by unfold matchId; omega)]
          exact ihdone j (by omega)
      · intro j hj1 hj2
        rw [List.range_succ, List.foldl_append]
        simp only [List.foldl_cons, List.foldl_nil]
        rw [assignFirstRound_preserves_other ids n R _ k (matchId R (j + 1)) ihs
          (by unfold matchId; omega) (by unfold matchId; omega)]
        exact ihtodo j (by omega) hj2

theorem generate_eq (ids : List ℕ) (b : List TMatch) (h2 : 2 ≤ ids.length)
    (hb : generate_tournament_bracket ids = some b) :
    b = (List.range (2 ^ (ceilLog2 ids.length - 1))).foldl
        (assignFirstRound ids ids.length (ceilLog2 ids.length))
        (initialBracket (ceilLog2 ids.length)) := by
  unfold generate_tournament_bracket at hb
  rw [if_neg (by omega)] at hb
  exact (Option.some.injEq _ _ ▸ hb).symm

/-- C4: for every player list of length n with n at least 2, the generated
bracket has exactly 2 to the ceil(log2 n) minus 1 match rows, with 2 to the
(r minus 1) matches in round r for every round r from 1 (the final) up to
ceil(log2 n), every non-final match carries a next-match reference, and in
the first round every seed greater than n leaves its player slot empty (a
bye). -/
theorem bracket_structure (playerIds : List ℕ) (b : List TMatch)
    (h2 : 2 ≤ playerIds.length)
    (hb : generate_tournament_bracket playerIds = some b) :
    ceilLog2 playerIds.length = Nat.clog 2 playerIds.length
    ∧ b.length = 2 ^ ceilLog2 playerIds.length - 1
    ∧ (∀ r, 1 ≤ r → r ≤ ceilLog2 playerIds.length →
        (b.filter fun x => x.round_number == r).length = 2 ^ (r - 1))
    ∧ (∀ x ∈ b, x.round_number ≠ 1 → x.next_match_id.isSome = true)
    ∧ (∀ j, j < 2 ^ (ceilLog2 playerIds.length - 1) →
        ∃ row, findMatch b (matchId (ceilLog2 playerIds.length) (j + 1)) = some row
          ∧ (playerIds.length <
              (get_seeding_for_round (ceilLog2 playerIds.length)).getD (j * 2) 0 →
              row.player1_id = none)
          ∧ (playerIds.length <
              (get_seeding_for_round (ceilLog2 playerIds.length)).getD (j * 2 + 1) 0 →
              row.player2_id = none)) := by
  have hR : 1 ≤ ceilLog2 playerIds.length := by
    rw [ceilLog2_eq_clog]
    exact Nat.clog_pos (by norm_num) h2
  have heq := generate_eq playerIds b h2 hb
  obtain ⟨hs, hrows, _⟩ := generate_fold_rows playerIds playerIds.length
    (ceilLog2 playerIds.length) hR (2 ^ (ceilLog2 playerIds.length - 1)) (le_refl _)
  rw [← heq] at hs hrows
  refine ⟨ceilLog2_eq_clog _, ?_, ?_, ?_, ?_⟩
  · have hlen := congrArg List.length hs
    rw [List.length_map, List.length_map] at hlen
    rw [hlen, length_initialBracket]
  · intro r hr1 hr2
    have key : ∀ (l : List TMatch), (l.filter fun x => x.round_number == r).length
        = (l.map shapeOf).countP fun s => s.2.1 == r := by
      intro l
      rw [← List.countP_eq_length_filter, List.countP_map]
      rfl
    rw [key, hs, ← key, ← List.countP_eq_length_filter]
    exact count_round_initialBracket (ceilLog2 playerIds.length) r hr1 hr2
  · intro x hx hr
    have hmemshape : shapeOf x ∈ (initialBracket (ceilLog2 playerIds.length)).map shapeOf := by
      rw [← hs]
      exact List.mem_map_of_mem shapeOf hx
    rw [List.mem_map] at hmemshape
    obtain ⟨y, hy, hsy⟩ := hmemshape
    have hround : y.round_number = x.round_number := congrArg (fun s => s.2.1) hsy
    have hnext : y.next_match_id = x.next_match_id := congrArg (fun s => s.2.2.2) hsy
    rw [← hnext]
    exact next_isSome_initialBracket _ y hy (by rw [hround]; exact hr)
  · intro j hj
    refine ⟨finalRow playerIds playerIds.length (ceilLog2 playerIds.length) j,
      hrows j hj, ?_, ?_⟩
    · intro hseed
      unfold finalRow
      dsimp only
      rw [if_neg (by omega)]
    · intro hseed
      unfold finalRow
      dsimp only
      rw [if_neg (by omega)]


/-- Winner column of the (first) match row with a given id. -/
def winnerOf (b : List TMatch) (mid : ℕ) : Option ℕ :=
  (findMatch b mid).bind fun x => x.winner_id

theorem winnerOf_setMatch_keep (b : List TMatch) (nid mid : ℕ) (f : TMatch → TMatch)
    (hid : ∀ x, (f x).id = x.id) (hw : ∀ x, (f x).winner_id = x.winner_id) :
    winnerOf (setMatch b nid f) mid = winnerOf b mid := by
  unfold winnerOf
  rw [findMatch_setMatch b nid mid f hid]
  split
  · cases findMatch b mid with
    | none => rfl
    | some x => simp [hw x]
  · rfl

theorem winnerOf_setMatch_at (b : List TMatch) (nid : ℕ) (f : TMatch → TMatch)
    (hid : ∀ x, (f x).id = x.id) (x0 : TMatch) (hfind : findMatch b nid = some x0) :
    winnerOf (setMatch b nid f) nid = (f x0).winner_id := by
  unfold winnerOf
  rw [findMatch_setMatch b nid nid f hid, if_pos rfl, hfind]
  rfl

theorem winnerOf_setMatch_other (b : List TMatch) (nid mid : ℕ) (f : TMatch → TMatch)
    (hid : ∀ x, (f x).id = x.id) (hne : mid ≠ nid) :
    winnerOf (setMatch b nid f) mid = winnerOf b mid := by
  unfold winnerOf
  rw [findMatch_setMatch b nid mid f hid, if_neg hne]

theorem winnerOf_eq_of_mem (b : List TMatch) (y : TMatch)
    (hn : (b.map fun x => x.id).Nodup) (hy : y ∈ b) :
    winnerOf b y.id = y.winner_id := by
  unfold winnerOf
  rw [findMatch_eq_of_mem b y hn hy]
  rfl

theorem ids_of_shape (b b0 : List TMatch) (h : b.map shapeOf = b0.map shapeOf) :
    (b.map fun x => x.id) = b0.map fun x => x.id := by
  have key : ∀ l : List TMatch, (l.map fun x => x.id) = (l.map shapeOf).map Prod.fst := by
    intro l
    rw [List.map_map]
    rfl
  rw [key, key, h]

theorem winner_isSome_advance (fuel : ℕ) :
    ∀ (auto : Bool) (b : List TMatch) (m : TMatch) (mid : ℕ),
    (winnerOf b mid).isSome = true →
    (winnerOf (advance_winner fuel auto b m) mid).isSome = true := by
  induction fuel with
  | zero => intro auto b m mid h; exact h
  | succ fuel ih =>
      intro auto b m mid h
      obtain ⟨mid0, r0, mn0, p10, p20, w0, g0, nx0⟩ := m
      cases w0 with
      | none => exact h
      | some w =>
      cases nx0 with
      | none => exact h
      | some nid =>
      rw [advance_winner]
      dsimp only
      cases hfind : findMatch b nid with
      | none => exact h
      | some x0 =>
      dsimp only
      cases auto with
      | false =>
          rw [if_neg (by simp)]
          split
          · rw [winnerOf_setMatch_keep b nid mid
              (fun x => { x with player1_id := some w }) (fun x => rfl) (fun x => rfl)]
            exact h
          · rw [winnerOf_setMatch_keep b nid mid
              (fun x => { x with player2_id := some w }) (fun x => rfl) (fun x => rfl)]
            exact h
      | true =>
          rw [if_pos rfl]
          generalize hB1 : (if (match (sortByMatchNumber
              (List.filter (fun x => x.next_match_id == some nid) b)).head? with
              | some p => p.id == mid0
              | none => false) = true then
              setMatch b nid fun x => { x with player1_id := some w }
            else setMatch b nid fun x => { x with player2_id := some w }) = b1
          have hwkeep : ∀ mid2, winnerOf b1 mid2 = winnerOf b mid2 := by
            intro mid2
            rw [← hB1]
            split
            · rw [winnerOf_setMatch_keep b nid mid2
                (fun x => { x with player1_id := some w }) (fun x => rfl) (fun x => rfl)]
            · rw [winnerOf_setMatch_keep b nid mid2
                (fun x => { x with player2_id := some w }) (fun x => rfl) (fun x => rfl)]
          by_cases hres : ((b1.filter fun x => x.next_match_id == some nid).all
              fun x => x.winner_id.isSome) = true
          · rw [if_pos hres]
            cases heq1 : findMatch b1 nid with
            | none =>
                dsimp only
                rw [hwkeep]
                exact h
            | some next1 =>
                dsimp only
                by_cases hc1 : (next1.player1_id.isSome && next1.player2_id.isNone) = true
                · rw [if_pos hc1]
                  have hw2 : (winnerOf (setMatch b1 nid
                      fun x => { x with winner_id := x.player1_id }) mid).isSome = true := by
                    by_cases hmid : mid = nid
                    · subst hmid
                      rw [winnerOf_setMatch_at b1 mid
                        (fun x => { x with winner_id := x.player1_id }) (fun x => rfl) next1 heq1]
                      have hcc := hc1
                      simp only [Bool.and_eq_true] at hcc
                      exact hcc.1
                    · rw [winnerOf_setMatch_other b1 nid mid
                        (fun x => { x with winner_id := x.player1_id }) (fun x => rfl) hmid,
                        hwkeep]
                      exact h
                  cases heq2 : findMatch (setMatch b1 nid
                      fun x => { x with winner_id := x.player1_id }) nid with
                  | none => exact hw2
                  | some next2 => exact ih true _ next2 mid hw2
                · by_cases hc2 : (next1.player2_id.isSome && next1.player1_id.isNone) = true
                  · rw [if_neg hc1, if_pos hc2]
                    have hw2 : (winnerOf (setMatch b1 nid
                        fun x => { x with winner_id := x.player2_id }) mid).isSome = true := by
                      by_cases hmid : mid = nid
                      · subst hmid
                        rw [winnerOf_setMatch_at b1 mid
                          (fun x => { x with winner_id := x.player2_id }) (fun x => rfl) next1 heq1]
                        have hcc := hc2
                        simp only [Bool.and_eq_true] at hcc
                        exact hcc.1
                      · rw [winnerOf_setMatch_other b1 nid mid
                          (fun x => { x with winner_id := x.player2_id }) (fun x => rfl) hmid,
                          hwkeep]
                        exact h
                    cases heq2 : findMatch (setMatch b1 nid
                        fun x => { x with winner_id := x.player2_id }) nid with
                    | none => exact hw2
                    | some next2 => exact ih true _ next2 mid hw2
                  · rw [if_neg hc1, if_neg hc2, hwkeep]
                    exact h
          · rw [if_neg hres, hwkeep]
            exact h

theorem advance_auto_gating (fuel : ℕ) :
    ∀ (b : List TMatch) (m : TMatch) (mid : ℕ) (bout : List TMatch),
    advance_winner fuel true b m = bout →
    (b.map fun x => x.id).Nodup →
    winnerOf b mid = none →
    (winnerOf bout mid).isSome = true →
    ∀ y ∈ bout, y.next_match_id = some mid → y.winner_id.isSome = true := by
  induction fuel with
  | zero =>
      intro b m mid bout hadv hnd h0 hS y hy hx
      rw [show advance_winner 0 true b m = b from rfl] at hadv
      subst hadv
      rw [h0] at hS
      simp at hS
  | succ fuel ih =>
      intro b m mid bout hadv hnd h0 hS y hy hx
      obtain ⟨mid0, r0, mn0, p10, p20, w0, g0, nx0⟩ := m
      cases w0 with
      | none =>
          rw [advance_winner] at hadv
          dsimp only at hadv
          subst hadv
          rw [h0] at hS
          simp at hS
      | some w =>
      cases nx0 with
      | none =>
          rw [advance_winner] at hadv
          dsimp only at hadv
          subst hadv
          rw [h0] at hS
          simp at hS
      | some nid =>
      rw [advance_winner] at hadv
      dsimp only at hadv
      cases hfind : findMatch b nid with
      | none =>
          rw [hfind] at hadv
          dsimp only at hadv
          subst hadv
          rw [h0] at hS
          simp at hS
      | some x0 =>
          rw [hfind] at hadv
          dsimp only at hadv
          rw [if_pos rfl] at hadv
          revert hadv
          generalize hB1 : (if (match (sortByMatchNumber
              (List.filter (fun x => x.next_match_id == some nid) b)).head? with
              | some p => p.id == mid0
              | none => false) = true then
              setMatch b nid fun x => { x with player1_id := some w }
            else setMatch b nid fun x => { x with player2_id := some w }) = b1
          intro hadv
          have hwkeep : ∀ mid2, winnerOf b1 mid2 = winnerOf b mid2 := by
            intro mid2
            rw [← hB1]
            split
            · rw [winnerOf_setMatch_keep b nid mid2
                (fun x => { x with player1_id := some w }) (fun x => rfl) (fun x => rfl)]
            · rw [winnerOf_setMatch_keep b nid mid2
                (fun x => { x with player2_id := some w }) (fun x => rfl) (fun x => rfl)]
          have hshape1 : b1.map shapeOf = b.map shapeOf := by
            rw [← hB1]
            split
            · exact map_shape_setMatch b nid
                (fun x => { x with player1_id := some w }) (fun x => rfl)
            · exact map_shape_setMatch b nid
                (fun x => { x with player2_id := some w }) (fun x => rfl)
          have hnd1 : (b1.map fun x => x.id).Nodup := by
            rw [ids_of_shape b1 b hshape1]
            exact hnd
          by_cases hres : ((b1.filter fun x => x.next_match_id == some nid).all
              fun x => x.winner_id.isSome) = true
          · rw [if_pos hres] at hadv
            have hpar1 : ∀ z ∈ b1, z.next_match_id = some nid → z.winner_id.isSome = true := by
              intro z hz hzx
              exact List.all_eq_true.mp hres z (List.mem_filter.mpr ⟨hz, by simp [hzx]⟩)
            cases heq1 : findMatch b1 nid with
            | none =>
                rw [heq1] at hadv
                dsimp only at hadv
                subst hadv
                rw [hwkeep, h0] at hS
                simp at hS
            | some next1 =>
                rw [heq1] at hadv
                dsimp only at hadv
                by_cases hc1 : (next1.player1_id.isSome && next1.player2_id.isNone) = true
                · rw [if_pos hc1] at hadv
                  have hshape2 : ((setMatch b1 nid
                      fun x => { x with winner_id := x.player1_id }).map shapeOf)
                        = b.map shapeOf :=
                    (map_shape_setMatch b1 nid
                      (fun x => { x with winner_id := x.player1_id }) (fun x => rfl)).trans hshape1
                  have hnd2 : (((setMatch b1 nid
                      fun x => { x with winner_id := x.player1_id }).map fun x => x.id)).Nodup := by
                    rw [ids_of_shape _ b hshape2]
                    exact hnd
                  have hwb2at : winnerOf (setMatch b1 nid
                      fun x => { x with winner_id := x.player1_id }) nid = next1.player1_id := by
                    rw [winnerOf_setMatch_at b1 nid
                      (fun x => { x with winner_id := x.player1_id }) (fun x => rfl) next1 heq1]
                  have hwb2mono : ∀ mid2, (winnerOf b1 mid2).isSome = true →
                      (winnerOf (setMatch b1 nid
                        fun x => { x with winner_id := x.player1_id }) mid2).isSome = true := by
                    intro mid2 hsm
                    by_cases hm2 : mid2 = nid
                    · subst hm2
                      rw [hwb2at]
                      have hcc := hc1
                      simp only [Bool.and_eq_true] at hcc
                      exact hcc.1
                    · rw [winnerOf_setMatch_other b1 nid mid2
                        (fun x => { x with winner_id := x.player1_id }) (fun x => rfl) hm2]
                      exact hsm
                  cases heq2 : findMatch (setMatch b1 nid
                      fun x => { x with winner_id := x.player1_id }) nid with
                  | none =>
                      rw [findMatch_setMatch b1 nid nid
                        (fun x => { x with winner_id := x.player1_id }) (fun x => rfl),
                        if_pos rfl, heq1] at heq2
                      exact Option.noConfusion heq2
                  | some next2 =>
                      rw [heq2] at hadv
                      dsimp only at hadv
                      by_cases hmid : mid = nid
                      · subst hmid
                        have hshN : bout.map shapeOf = b.map shapeOf := by
                          rw [← hadv, map_shape_advance]
                          exact hshape2
                        have hndN : (bout.map fun x => x.id).Nodup := by
                          rw [ids_of_shape bout b hshN]
                          exact hnd
                        have hyN := winnerOf_eq_of_mem bout y hndN hy
                        have hys : shapeOf y ∈ bout.map shapeOf :=
                          List.mem_map_of_mem shapeOf hy
                        rw [hshN, ← hshape1] at hys
                        obtain ⟨y1, hy1mem, hy1sh⟩ := List.mem_map.mp hys
                        have hid1 : y1.id = y.id := congrArg Prod.fst hy1sh
                        have hnx1 : y1.next_match_id = y.next_match_id :=
                          congrArg (fun s => s.2.2.2) hy1sh
                        have hw1 : y1.winner_id.isSome = true :=
                          hpar1 y1 hy1mem (hnx1.trans hx)
                        have hb1w : (winnerOf b1 y.id).isSome = true := by
                          rw [← hid1, winnerOf_eq_of_mem b1 y1 hnd1 hy1mem]
                          exact hw1
                        have hb2w := hwb2mono y.id hb1w
                        have hboutw : (winnerOf bout y.id).isSome = true := by
                          rw [← hadv]
                          exact winner_isSome_advance fuel true _ next2 y.id hb2w
                        rw [hyN] at hboutw
                        exact hboutw
                      · have h02 : winnerOf (setMatch b1 nid
                            fun x => { x with winner_id := x.player1_id }) mid = none := by
                          rw [winnerOf_setMatch_other b1 nid mid
                            (fun x => { x with winner_id := x.player1_id }) (fun x => rfl) hmid,
                            hwkeep]
                          exact h0
                        exact ih _ next2 mid bout hadv hnd2 h02 hS y hy hx
                · by_cases hc2 : (next1.player2_id.isSome && next1.player1_id.isNone) = true
                  · rw [if_neg hc1, if_pos hc2] at hadv
                    have hshape2 : ((setMatch b1 nid
                        fun x => { x with winner_id := x.player2_id }).map shapeOf)
                          = b.map shapeOf :=
                      (map_shape_setMatch b1 nid
                        (fun x => { x with winner_id := x.player2_id }) (fun x => rfl)).trans hshape1
                    have hnd2 : (((setMatch b1 nid
                        fun x => { x with winner_id := x.player2_id }).map fun x => x.id)).Nodup := by
                      rw [ids_of_shape _ b hshape2]
                      exact hnd
                    have hwb2at : winnerOf (setMatch b1 nid
                        fun x => { x with winner_id := x.player2_id }) nid = next1.player2_id := by
                      rw [winnerOf_setMatch_at b1 nid
                        (fun x => { x with winner_id := x.player2_id }) (fun x => rfl) next1 heq1]
                    have hwb2mono : ∀ mid2, (winnerOf b1 mid2).isSome = true →
                        (winnerOf (setMatch b1 nid
                          fun x => { x with winner_id := x.player2_id }) mid2).isSome = true := by
                      intro mid2 hsm
                      by_cases hm2 : mid2 = nid
                      · subst hm2
                        rw [hwb2at]
                        have hcc := hc2
                        simp only [Bool.and_eq_true] at hcc
                        exact hcc.1
                      · rw [winnerOf_setMatch_other b1 nid mid2
                          (fun x => { x with winner_id := x.player2_id }) (fun x => rfl) hm2]
                        exact hsm
                    cases heq2 : findMatch (setMatch b1 nid
                        fun x => { x with winner_id := x.player2_id }) nid with
                    | none =>
                        rw [findMatch_setMatch b1 nid nid
                          (fun x => { x with winner_id := x.player2_id }) (fun x => rfl),
                          if_pos rfl, heq1] at heq2
                        exact Option.noConfusion heq2
                    | some next2 =>
                        rw [heq2] at hadv
                        dsimp only at hadv
                        by_cases hmid : mid = nid
                        · subst hmid
                          have hshN : bout.map shapeOf = b.map shapeOf := by
                            rw [← hadv, map_shape_advance]
                            exact hshape2
                          have hndN : (bout.map fun x => x.id).Nodup := by
                            rw [ids_of_shape bout b hshN]
                            exact hnd
                          have hyN := winnerOf_eq_of_mem bout y hndN hy
                          have hys : shapeOf y ∈ bout.map shapeOf :=
                            List.mem_map_of_mem shapeOf hy
                          rw [hshN, ← hshape1] at hys
                          obtain ⟨y1, hy1mem, hy1sh⟩ := List.mem_map.mp hys
                          have hid1 : y1.id = y.id := congrArg Prod.fst hy1sh
                          have hnx1 : y1.next_match_id = y.next_match_id :=
                            congrArg (fun s => s.2.2.2) hy1sh
                          have hw1 : y1.winner_id.isSome = true :=
                            hpar1 y1 hy1mem (hnx1.trans hx)
                          have hb1w : (winnerOf b1 y.id).isSome = true := by
                            rw [← hid1, winnerOf_eq_of_mem b1 y1 hnd1 hy1mem]
                            exact hw1
                          have hb2w := hwb2mono y.id hb1w
                          have hboutw : (winnerOf bout y.id).isSome = true := by
                            rw [← hadv]
                            exact winner_isSome_advance fuel true _ next2 y.id hb2w
                          rw [hyN] at hboutw
                          exact hboutw
                        · have h02 : winnerOf (setMatch b1 nid
                              fun x => { x with winner_id := x.player2_id }) mid = none := by
                            rw [winnerOf_setMatch_other b1 nid mid
                              (fun x => { x with winner_id := x.player2_id }) (fun x => rfl) hmid,
                              hwkeep]
                            exact h0
                          exact ih _ next2 mid bout hadv hnd2 h02 hS y hy hx
                  · rw [if_neg hc1, if_neg hc2] at hadv
                    subst hadv
                    rw [hwkeep, h0] at hS
                    simp at hS
          · rw [if_neg hres] at hadv
            subst hadv
            rw [hwkeep, h0] at hS
            simp at hS

theorem finalRow_winner (ids : List ℕ) (n R j : ℕ) :
    ((finalRow ids n R j).player1_id.isSome = true → (finalRow ids n R j).player2_id = none →
      (finalRow ids n R j).winner_id = (finalRow ids n R j).player1_id)
    ∧ ((finalRow ids n R j).player2_id.isSome = true → (finalRow ids n R j).player1_id = none →
      (finalRow ids n R j).winner_id = (finalRow ids n R j).player2_id)
    ∧ ((finalRow ids n R j).player1_id.isSome = true →
        (finalRow ids n R j).player2_id.isSome = true →
      (finalRow ids n R j).winner_id = none) := by
  unfold finalRow
  dsimp only
  generalize (if (get_seeding_for_round R).getD (j * 2) 0 ≤ n then
    ids.get? ((get_seeding_for_round R).getD (j * 2) 0 - 1) else none) = P1
  generalize (if (get_seeding_for_round R).getD (j * 2 + 1) 0 ≤ n then
    ids.get? ((get_seeding_for_round R).getD (j * 2 + 1) 0 - 1) else none) = P2
  cases P1 <;> cases P2 <;> simp

theorem generation_bye_resolution (ids : List ℕ) (b : List TMatch)
    (h2 : 2 ≤ ids.length) (hb : generate_tournament_bracket ids = some b) :
    ∀ j, j < 2 ^ (ceilLog2 ids.length - 1) →
    ∃ row, findMatch b (matchId (ceilLog2 ids.length) (j + 1)) = some row
      ∧ (row.player1_id.isSome = true → row.player2_id = none →
          row.winner_id = row.player1_id)
      ∧ (row.player2_id.isSome = true → row.player1_id = none →
          row.winner_id = row.player2_id)
      ∧ (row.player1_id.isSome = true → row.player2_id.isSome = true →
          row.winner_id = none) := by
  intro j hj
  have heq := generate_eq ids b h2 hb
  have hR : 1 ≤ ceilLog2 ids.length := by
    rw [ceilLog2_eq_clog]
    exact Nat.clog_pos (by norm_num) h2
  obtain ⟨_, hrows, _⟩ := generate_fold_rows ids ids.length (ceilLog2 ids.length) hR
    (2 ^ (ceilLog2 ids.length - 1)) (le_refl _)
  rw [← heq] at hrows
  exact ⟨finalRow ids ids.length (ceilLog2 ids.length) j, hrows j hj,
    finalRow_winner ids ids.length (ceilLog2 ids.length) j⟩

theorem advance_manual_winners (fuel : ℕ) (b : List TMatch) (m : TMatch) (mid : ℕ) :
    winnerOf (advance_winner fuel false b m) mid = winnerOf b mid := by
  cases fuel with
  | zero => rfl
  | succ fuel =>
      obtain ⟨mid0, r0, mn0, p10, p20, w0, g0, nx0⟩ := m
      cases w0 with
      | none => rfl
      | some w =>
      cases nx0 with
      | none => rfl
      | some nid =>
      rw [advance_winner]
      dsimp only
      cases hfind : findMatch b nid with
      | none => rfl
      | some x0 =>
          dsimp only
          rw [if_neg (by simp)]
          split
          · rw [winnerOf_setMatch_keep b nid mid
              (fun x => { x with player1_id := some w }) (fun x => rfl) (fun x => rfl)]
          · rw [winnerOf_setMatch_keep b nid mid
              (fun x => { x with player2_id := some w }) (fun x => rfl) (fun x => rfl)]

theorem advance_manual_slot (fuel : ℕ) (b : List TMatch) (m : TMatch) (w nid : ℕ)
    (x0 : TMatch) (hw : m.winner_id = some w) (hnx : m.next_match_id = some nid)
    (hfind : findMatch b nid = some x0) :
    ∃ row, findMatch (advance_winner (fuel + 1) false b m) nid = some row
      ∧ (row.player1_id = some w ∨ row.player2_id = some w)
      ∧ row.winner_id = x0.winner_id := by
  obtain ⟨mid0, r0, mn0, p10, p20, w0, g0, nx0⟩ := m
  dsimp only at hw hnx
  subst hw
  subst hnx
  rw [advance_winner]
  dsimp only
  rw [hfind]
  dsimp only
  rw [if_neg (by simp)]
  split
  · rw [findMatch_setMatch b nid nid
      (fun x => { x with player1_id := some w }) (fun x => rfl), if_pos rfl, hfind]
    exact ⟨_, rfl, Or.inl rfl, rfl⟩
  · rw [findMatch_setMatch b nid nid
      (fun x => { x with player2_id := some w }) (fun x => rfl), if_pos rfl, hfind]
    exact ⟨_, rfl, Or.inr rfl, rfl⟩

/-- C5: (1) during bracket generation every first-round match that received
exactly one real player and one bye is auto-resolved with that player as the
winner, while a first-round match with two real players is left undecided;
(2) with the bye flag set (auto = true), advance_winner resolves a pending
match mid only when every parent match feeding mid already has a winner in
the resulting bracket; (3) without the bye flag (manual completion),
advance_winner changes no winner column at all, and (4) it only places the
winner into one of the next match's player slots, leaving the next match's
winner column as it was. -/
theorem bye_resolution_policy :
    (∀ (ids : List ℕ) (b : List TMatch), 2 ≤ ids.length →
      generate_tournament_bracket ids = some b →
      ∀ j, j < 2 ^ (ceilLog2 ids.length - 1) →
      ∃ row, findMatch b (matchId (ceilLog2 ids.length) (j + 1)) = some row
        ∧ (row.player1_id.isSome = true → row.player2_id = none →
            row.winner_id = row.player1_id)
        ∧ (row.player2_id.isSome = true → row.player1_id = none →
            row.winner_id = row.player2_id)
        ∧ (row.player1_id.isSome = true → row.player2_id.isSome = true →
            row.winner_id = none))
    ∧ (∀ (fuel : ℕ) (b : List TMatch) (m : TMatch) (mid : ℕ) (bout : List TMatch),
        advance_winner fuel true b m = bout →
        (b.map fun x => x.id).Nodup →
        winnerOf b mid = none →
        (winnerOf bout mid).isSome = true →
        ∀ y ∈ bout, y.next_match_id = some mid → y.winner_id.isSome = true)
    ∧ (∀ (fuel : ℕ) (b : List TMatch) (m : TMatch) (mid : ℕ),
        winnerOf (advance_winner fuel false b m) mid = winnerOf b mid)
    ∧ (∀ (fuel : ℕ) (b : List TMatch) (m : TMatch) (w nid : ℕ) (x0 : TMatch),
        m.winner_id = some w → m.next_match_id = some nid →
        findMatch b nid = some x0 →
        ∃ row, findMatch (advance_winner (fuel + 1) false b m) nid = some row
          ∧ (row.player1_id = some w ∨ row.player2_id = some w)
          ∧ row.winner_id = x0.winner_id) :=
  ⟨generation_bye_resolution, advance_auto_gating, advance_manual_winners,
    advance_manual_slot⟩

/-- The bracket that `generate_tournament_bracket` computes for three players
with ids 10, 20 and 30 (used to witness C5). -/
@[reducible] def byeGenBracket : List TMatch :=
  [{ id := 0, round_number := 1, match_number := 1, player1_id := some 10,
     player2_id := none, winner_id := none, game_id := none, next_match_id := none },
   { id := 1, round_number := 2, match_number := 1, player1_id := some 10,
     player2_id := none, winner_id := some 10, game_id := none, next_match_id := some 0 },
   { id := 2, round_number := 2, match_number := 2, player1_id := some 20,
     player2_id := some 30, winner_id := none, game_id := none, next_match_id := some 0 }]

/-- Final-round row of a small two-round bracket (used to witness C5). -/
@[reducible] def byeRowF : TMatch :=
  { id := 0, round_number := 1, match_number := 1, player1_id := none,
    player2_id := none, winner_id := none, game_id := none, next_match_id := none }

/-- First parent of the final in the small bracket, already resolved by a bye. -/
@[reducible] def byeRowA : TMatch :=
  { id := 1, round_number := 2, match_number := 1, player1_id := some 10,
    player2_id := none, winner_id := some 10, game_id := none, next_match_id := some 0 }

/-- Second parent of the final in the small bracket, just resolved with winner 20. -/
@[reducible] def byeRowB : TMatch :=
  { id := 2, round_number := 2, match_number := 2, player1_id := some 20,
    player2_id := none, winner_id := some 20, game_id := none, next_match_id := some 0 }

/-- The small two-round bracket itself. -/
@[reducible] def byeBracket : List TMatch := [byeRowF, byeRowA, byeRowB]

/-- Result of auto-advancing byeRowB's winner through byeBracket: the final
receives player 20 in its second slot and, both parents being resolved and
the final having a single real player, is auto-resolved with winner 20. -/
@[reducible] def byeBracketOut : List TMatch :=
  [{ id := 0, round_number := 1, match_number := 1, player1_id := none,
     player2_id := some 20, winner_id := some 20, game_id := none, next_match_id := none },
   byeRowA, byeRowB]

theorem bye_resolution_policy_witness :
    (∃ row, findMatch byeGenBracket
        (matchId (ceilLog2 (List.length ([10, 20, 30] : List ℕ))) (0 + 1)) = some row
      ∧ (row.player1_id.isSome = true → row.player2_id = none →
          row.winner_id = row.player1_id)
      ∧ (row.player2_id.isSome = true → row.player1_id = none →
          row.winner_id = row.player2_id)
      ∧ (row.player1_id.isSome = true → row.player2_id.isSome = true →
          row.winner_id = none))
    ∧ (∀ y ∈ byeBracketOut, y.next_match_id = some 0 → y.winner_id.isSome = true)
    ∧ winnerOf (advance_winner 1 false byeBracket byeRowB) 0 = winnerOf byeBracket 0
    ∧ (∃ row, findMatch (advance_winner (0 + 1) false byeBracket byeRowB) 0 = some row
      ∧ (row.player1_id = some 20 ∨ row.player2_id = some 20)
      ∧ row.winner_id = byeRowF.winner_id) :=
  ⟨bye_resolution_policy.1 [10, 20, 30] byeGenBracket (by norm_num) rfl 0 (by norm_num),
   bye_resolution_policy.2.1 5 byeBracket byeRowB 0 byeBracketOut rfl (by decide) rfl rfl,
   bye_resolution_policy.2.2.1 1 byeBracket byeRowB 0,
   bye_resolution_policy.2.2.2 0 byeBracket byeRowB 20 0 byeRowF rfl rfl rfl⟩

/-- The bracket that `generate_tournament_bracket` computes for three players
with ids 10, 20 and 30 (used to witness C4). -/
@[reducible] def bracketThree : List TMatch :=
  [{ id := 0, round_number := 1, match_number := 1, player1_id := some 10,
     player2_id := none, winner_id := none, game_id := none, next_match_id := none },
   { id := 1, round_number := 2, match_number := 1, player1_id := some 10,
     player2_id := none, winner_id := some 10, game_id := none, next_match_id := some 0 },
   { id := 2, round_number := 2, match_number := 2, player1_id := some 20,
     player2_id := some 30, winner_id := none, game_id := none, next_match_id := some 0 }]

theorem bracket_structure_witness :
    ceilLog2 (List.length ([10, 20, 30] : List ℕ))
        = Nat.clog 2 (List.length ([10, 20, 30] : List ℕ))
    ∧ bracketThree.length = 2 ^ ceilLog2 (List.length ([10, 20, 30] : List ℕ)) - 1
    ∧ (∀ r, 1 ≤ r → r ≤ ceilLog2 (List.length ([10, 20, 30] : List ℕ)) →
        (bracketThree.filter fun x => x.round_number == r).length = 2 ^ (r - 1))
    ∧ (∀ x ∈ bracketThree, x.round_number ≠ 1 → x.next_match_id.isSome = true)
    ∧ (∀ j, j < 2 ^ (ceilLog2 (List.length ([10, 20, 30] : List ℕ)) - 1) →
        ∃ row, findMatch bracketThree
            (matchId (ceilLog2 (List.length ([10, 20, 30] : List ℕ))) (j + 1)) = some row
          ∧ (List.length ([10, 20, 30] : List ℕ) <
              (get_seeding_for_round (ceilLog2 (List.length ([10, 20, 30] : List ℕ)))).getD
                (j * 2) 0 → row.player1_id = none)
          ∧ (List.length ([10, 20, 30] : List ℕ) <
              (get_seeding_for_round (ceilLog2 (List.length ([10, 20, 30] : List ℕ)))).getD
                (j * 2 + 1) 0 → row.player2_id = none)) :=
  bracket_structure [10, 20, 30] bracketThree (by norm_num) rfl

/-- State touched by `record_tournament_match` in `blueprints/tournaments.py`:
the tournament's match rows, the `game` table (as pairs of id and row), the
autoincrement counter for game ids, the `player` rating columns, the cake
ledger and the tournament's status string. -/
structure TournState where
  matchRows : List TMatch
  games : List (ℕ × Game)
  nextGameId : ℕ
  ratings : Ratings
  cakes : List CakeBalance
  status : String

/-- Translation of `record_tournament_match` from `blueprints/tournaments.py`
(lines 110 to 228).  Validations mirror the source in order: match found,
not already completed, both players present, both scores present, scores in
0..11, no draw.  On success it creates a `1v1` Game with both players as
participants (team 1 = player1, team 2 = player2, winner flags derived from
the scores), feeds the game to `update_elo_ratings`, stores winner and game
link on the match row, calls `advance_winner` WITHOUT the bye flag, and
flips the status to "completed" when the final (round 1) has a winner and a
game.  Note: nothing in the source ever touches the cake ledger on this
path, so the `cakes` field is returned unchanged.  (The snapshot call inside
`try` does not affect any state modelled here.) -/
noncomputable def record_tournament_match (st : TournState) (mid : ℕ)
    (team1_score team2_score : Option ℤ) (now : ℕ) : Except String TournState :=
  match findMatch st.matchRows mid with
  | none => Except.error "404: match not found"
  | some m =>
    if m.winner_id.isSome then Except.error "Match already completed"
    else if !(m.player1_id.isSome && m.player2_id.isSome) then
      Except.error "Match is not ready (missing players)"
    else
      match team1_score, team2_score with
      | none, _ => Except.error "Both scores are required"
      | some _, none => Except.error "Both scores are required"
      | some s1, some s2 =>
        if s1 < 0 ∨ s2 < 0 then Except.error "Scores cannot be negative!"
        else if 11 < s1 ∨ 11 < s2 then Except.error "Maximum score is 11!"
        else if s1 = s2 then
          Except.error "Draw games are not allowed. One team must win!"
        else
          let winner_id := if s1 > s2 then m.player1_id else m.player2_id
          let gid := st.nextGameId
          let game : Game :=
            { start_time := now, game_type := GameType.t1v1, team1_score := s1,
              team2_score := s2, season_id := none,
              players :=
                [{ player_id := m.player1_id.getD 0, team := 1,
                   is_winner := winner_id == m.player1_id, elo_change := none },
                 { player_id := m.player2_id.getD 0, team := 2,
                   is_winner := winner_id == m.player2_id, elo_change := none }] }
          let ratings1 := update_elo_ratings game st.ratings
          let m1 : TMatch := { m with winner_id := winner_id, game_id := some gid }
          let matches1 := setMatch st.matchRows mid fun x =>
            { x with winner_id := winner_id, game_id := some gid }
          let matches2 := advance_winner (matches1.length + 1) false matches1 m1
          let finals := matches2.find? fun x => x.round_number == 1
          let status1 :=
            match finals with
            | some f =>
                if f.winner_id.isSome && f.game_id.isSome then "completed" else st.status
            | none => st.status
          Except.ok
            { matchRows := matches2, games := st.games ++ [(gid, game)],
              nextGameId := gid + 1, ratings := ratings1,
              cakes := st.cakes, status := status1 }

/-- A two-player tournament ready for its final: one match row holding
players 1 and 2, no games yet, baseline ratings, an empty cake ledger. -/
noncomputable def tournState0 : TournState :=
  { matchRows :=
      [{ id := 0, round_number := 1, match_number := 1,
         player1_id := some 1, player2_id := some 2, winner_id := none,
         game_id := none, next_match_id := none }],
    games := [], nextGameId := 7, ratings := baselineRatings, cakes := [],
    status := "active" }

/-- The Game that recording a 10 to 0 result for tournState0's match creates. -/
def tournGame0 : Game :=
  { start_time := 123, game_type := GameType.t1v1, team1_score := 10,
    team2_score := 0, season_id := none,
    players :=
      [{ player_id := 1, team := 1, is_winner := true, elo_change := none },
       { player_id := 2, team := 2, is_winner := false, elo_change := none }] }

/-- C7 counterexample: recording a 10 to 0 tournament result — a shutout —
stores the game and leaves the cake ledger EMPTY: `record_tournament_match`
never calls `update_cake_balance`, although feeding the created game to the
ledger would have produced a debt row, so a tournament shutout does not
increase the loser's debt to the winner. -/
theorem tournament_shutout_skips_cake_ledger :
    (Except.map (fun st => st.games)
        (record_tournament_match tournState0 0 (some 10) (some 0) 123))
      = Except.ok [(7, tournGame0)]
    ∧ (Except.map (fun st => st.cakes)
        (record_tournament_match tournState0 0 (some 10) (some 0) 123))
      = Except.ok []
    ∧ is_shutout tournGame0 = true
    ∧ update_cake_balance tournGame0 [] ≠ [] :=
  ⟨rfl, rfl, rfl, by decide⟩

/-- C7 (amended): for every tournament match with both (distinct) players
present and no winner yet, recording valid unequal scores succeeds and (1)
creates a Game with game_type 1v1 and the given scores, (2) attaches both
players as participants (player1 on team 1, player2 on team 2) with winner
flags derived from the scores, (3) appends that game to the game table and
feeds it into the rating engine (`update_elo_ratings`), but (4) leaves the
cake ledger exactly as it was — even when the game is a shutout, it is NOT
fed into the cake ledger. -/
theorem tournament_match_records_game (st : TournState) (mid : ℕ) (m : TMatch)
    (s1 s2 : ℤ) (now : ℕ) (st' : TournState)
    (hfind : findMatch st.matchRows mid = some m)
    (hw : m.winner_id = none)
    (hp1 : m.player1_id.isSome = true)
    (hp2 : m.player2_id.isSome = true)
    (hpp : m.player1_id ≠ m.player2_id)
    (h0 : 0 ≤ s1) (h0' : 0 ≤ s2) (h11 : s1 ≤ 11) (h11' : s2 ≤ 11) (hne : s1 ≠ s2)
    (hok : record_tournament_match st mid (some s1) (some s2) now = Except.ok st') :
    (∃ game : Game,
      game.game_type = GameType.t1v1
      ∧ game.team1_score = s1
      ∧ game.team2_score = s2
      ∧ (game.players.map fun gp => (gp.player_id, gp.team))
          = [(m.player1_id.getD 0, 1), (m.player2_id.getD 0, 2)]
      ∧ (game.players.map fun gp => gp.is_winner)
          = [decide (s2 < s1), decide (s1 < s2)]
      ∧ st'.games = st.games ++ [(st.nextGameId, game)]
      ∧ st'.ratings = update_elo_ratings game st.ratings)
    ∧ st'.cakes = st.cakes := by
  unfold record_tournament_match at hok
  rw [hfind] at hok
  dsimp only at hok
  rw [hw] at hok
  rw [if_neg (by simp)] at hok
  rw [hp1, hp2] at hok
  rw [if_neg (by simp)] at hok
  rw [if_neg (by omega), if_neg (by omega), if_neg hne] at hok
  injection hok with hst
  subst hst
  refine ⟨⟨
    { start_time := now, game_type := GameType.t1v1, team1_score := s1,
      team2_score := s2, season_id := none,
      players :=
        [{ player_id := m.player1_id.getD 0, team := 1,
           is_winner := (if s1 > s2 then m.player1_id else m.player2_id) == m.player1_id,
           elo_change := none },
         { player_id := m.player2_id.getD 0, team := 2,
           is_winner := (if s1 > s2 then m.player1_id else m.player2_id) == m.player2_id,
           elo_change := none }] },
    rfl, rfl, rfl, rfl, ?_, rfl, rfl⟩, rfl⟩
  rcases lt_trichotomy s1 s2 with hlt | heq | hgt
  · rw [if_neg (by omega : ¬ s1 > s2)]
    have h1 : (m.player2_id == m.player1_id) = false :=
      beq_eq_false_iff_ne.mpr (Ne.symm hpp)
    have d1 : decide (s2 < s1) = false := decide_eq_false (by omega)
    have d2 : decide (s1 < s2) = true := decide_eq_true hlt
    simp [h1, d1, d2]
  · exact absurd heq hne
  · rw [if_pos (by omega : s1 > s2)]
    have h1 : (m.player1_id == m.player2_id) = false := beq_eq_false_iff_ne.mpr hpp
    have d1 : decide (s2 < s1) = true := decide_eq_true hgt
    have d2 : decide (s1 < s2) = false := decide_eq_false (by omega)
    simp [h1, d1, d2]

/-- The state after recording the 10 to 0 result on tournState0: winner and
game link stored on the match, game appended, ratings updated, cake ledger
untouched, tournament completed. -/
noncomputable def tournStateOut : TournState :=
  { matchRows :=
      [{ id := 0, round_number := 1, match_number := 1,
         player1_id := some 1, player2_id := some 2, winner_id := some 1,
         game_id := some 7, next_match_id := none }],
    games := [(7, tournGame0)], nextGameId := 8,
    ratings := update_elo_ratings tournGame0 baselineRatings, cakes := [],
    status := "completed" }

theorem tournament_match_records_game_witness :
    (∃ game : Game,
      game.game_type = GameType.t1v1
      ∧ game.team1_score = 10
      ∧ game.team2_score = 0
      ∧ (game.players.map fun gp => (gp.player_id, gp.team)) = [(1, 1), (2, 2)]
      ∧ (game.players.map fun gp => gp.is_winner) = [true, false]
      ∧ tournStateOut.games = tournState0.games ++ [(tournState0.nextGameId, game)]
      ∧ tournStateOut.ratings = update_elo_ratings game tournState0.ratings)
    ∧ tournStateOut.cakes = tournState0.cakes :=
  tournament_match_records_game tournState0 0
    { id := 0, round_number := 1, match_number := 1, player1_id := some 1,
      player2_id := some 2, winner_id := none, game_id := none,
      next_match_id := none }
    10 0 123 tournStateOut rfl rfl rfl rfl (by decide) (by decide) (by decide)
    (by decide) (by decide) (by decide) rfl
